import Mathlib

/-!
Verification of the tax-notice backend (pdf_extractor.py, gemini_api.py, app.py)
against its natural-language specification.

Strings are modelled as `List Char`; Python's `str` operations are embedded as
recursive functions on character lists.  Python's float division comparisons
(`alphanumeric_ratio < 0.4` etc.) are modelled exactly on the rationals by
cross-multiplication; all concrete inputs used below keep the two models in
agreement.  Character classes (`isalpha`, `isdigit`, `lower`, `upper`, regex
classes) are modelled over ASCII, which is the alphabet all relevant inputs
live in (the text normalizer itself deletes every non-ASCII character).
-/

set_option maxRecDepth 400000
set_option maxHeartbeats 4000000

/-- Python whitespace for `str.strip()` and the regex class `\s`:
space, tab, newline, carriage return, vertical tab, form feed. -/
def isPySpace (c : Char) : Bool :=
  c == ' ' || c == '\t' || c == '\n' || c == '\r' || c == '\x0b' || c == '\x0c'

/-- Python `str.strip()`: drop leading and trailing whitespace. -/
def pyStrip (cs : List Char) : List Char :=
  ((cs.dropWhile isPySpace).reverse.dropWhile isPySpace).reverse

/-- Python `str.startswith(pat)` on character lists. -/
def listStartsWith : List Char → List Char → Bool
  | _, [] => true
  | [], _ :: _ => false
  | c :: cs, p :: ps => c == p && listStartsWith cs ps

/-- Python `str.endswith(pat)` on character lists. -/
def listEndsWith (cs pat : List Char) : Bool :=
  listStartsWith cs.reverse pat.reverse

/-- Python substring containment `pat in hay` on character lists:
`pat` occurs starting at some position of `hay` (the empty pattern always
occurs). -/
def containsSub : List Char → List Char → Bool
  | [], pat => listStartsWith [] pat
  | c :: t, pat => listStartsWith (c :: t) pat || containsSub t pat

/-- Python `str.lower()` (ASCII model). -/
def toLowerL (cs : List Char) : List Char :=
  cs.map Char.toLower

/-- The fixed keyword set of `is_meaningful_text`
(pdf_extractor.py lines 244-248). -/
def tax_keywords : List (List Char) :=
  ["irs".toList, "tax".toList, "notice".toList, "payment".toList, "due".toList,
   "amount".toList, "balance".toList, "social security".toList, "ssn".toList,
   "form".toList, "return".toList, "refund".toList, "cp".toList,
   "letter".toList, "department".toList, "treasury".toList,
   "internal revenue".toList]

/-- Model of `is_meaningful_text` (pdf_extractor.py lines 224-256).
`letters` and `digits` count `isalpha`/`isdigit` characters; `total_chars` is
the length after removing exactly the characters space, newline and tab
(the source's three `replace` calls).  The float comparisons
`alphanumeric_ratio < 0.4`, `> 0.25`, `> 0.4` are rendered by
cross-multiplication over the naturals. -/
def is_meaningful_text (text : List Char) : Bool :=
  if text = [] || (pyStrip text).length < 30 then false
  else
    let letters := (text.filter Char.isAlpha).length
    let digits := (text.filter Char.isDigit).length
    let total_alphanumeric := letters + digits
    let total_chars :=
      (text.filter (fun c => !(c == ' ' || c == '\n' || c == '\t'))).length
    if total_chars = 0 then false
    else if 5 * total_alphanumeric < 2 * total_chars then false
    else
      let keyword_found := tax_keywords.any (fun k => containsSub (toLowerL text) k)
      if keyword_found && decide (4 * total_alphanumeric > total_chars) then true
      else decide (5 * total_alphanumeric > 2 * total_chars)

/-- A 30-character input for claim C2: the keyword "irs" is present, the
alphanumeric ratio is 9/30 = 0.3, strictly between 0.25 and 0.4. -/
def c2Input : List Char :=
  "irsirsirs$$$$$$$$$$$$$$$$$$$$$".toList

/-- Greedy backtracking matcher for the regex tail `\s*\n`:
on success returns the input remaining after the match.  The Kleene star is
tried longest-first, as Python's engine does. -/
def matchWsNl : List Char → Option (List Char)
  | [] => none
  | c :: rest =>
    if isPySpace c then
      match matchWsNl rest with
      | some r => some r
      | none => if c == '\n' then some rest else none
    else none

/-- Greedy backtracking matcher for the regex tail `\s*\n\s*\n`. -/
def matchWsNlWsNl : List Char → Option (List Char)
  | [] => none
  | c :: rest =>
    if isPySpace c then
      match matchWsNlWsNl rest with
      | some r => some r
      | none => if c == '\n' then matchWsNl rest else none
    else none

/-- Stage 1 of `clean_extracted_text`: the substitution of
`\n\s*\n\s*\n` by two newlines (pdf_extractor.py line 206), with the
left-to-right non-overlapping scan of `re.sub`.  `fuel` bounds the number of
scan steps; every step consumes at least one input character, so the
wrapper's `cs.length` is always sufficient and the fuel-exhausted branch is
unreachable. -/
def collapseNewlinesF : Nat → List Char → List Char
  | 0, cs => cs
  | _ + 1, [] => []
  | fuel + 1, c :: rest =>
    if c == '\n' then
      match matchWsNlWsNl rest with
      | some r => '\n' :: '\n' :: collapseNewlinesF fuel r
      | none => c :: collapseNewlinesF fuel rest
    else c :: collapseNewlinesF fuel rest

def collapseNewlines (cs : List Char) : List Char :=
  collapseNewlinesF cs.length cs

def isSpaceTab (c : Char) : Bool := c == ' ' || c == '\t'

/-- Stage 2: the substitution of runs `[ \t]+` by one space
(pdf_extractor.py line 207).  `inRun` records whether the scan stands inside
a run whose single replacement space was already emitted. -/
def collapseSpacesGo (inRun : Bool) : List Char → List Char
  | [] => []
  | c :: rest =>
    if isSpaceTab c then
      if inRun then collapseSpacesGo true rest
      else ' ' :: collapseSpacesGo true rest
    else c :: collapseSpacesGo false rest

def collapseSpaces (cs : List Char) : List Char :=
  collapseSpacesGo false cs

/-- Stage 4: removal of pipe runs `\|{2,}` (pdf_extractor.py line 211);
`skip` records whether the scan stands inside a run being deleted.
Stage 3, the removal of `[^\x00-\x7F]+`, is a plain filter and is inlined
in `clean_extracted_text`. -/
def stripPipeRunsGo : Bool → List Char → List Char
  | _, [] => []
  | true, c :: rest =>
    if c == '|' then stripPipeRunsGo true rest
    else c :: stripPipeRunsGo false rest
  | false, '|' :: '|' :: rest2 => stripPipeRunsGo true rest2
  | false, c :: rest => c :: stripPipeRunsGo false rest

def stripPipeRuns (cs : List Char) : List Char :=
  stripPipeRunsGo false cs

/-- Stage 5: removal of underscore runs `_{3,}` (pdf_extractor.py
line 212); runs of one or two underscores are kept. -/
def stripUnderscoreRunsGo : Bool → List Char → List Char
  | _, [] => []
  | true, c :: rest =>
    if c == '_' then stripUnderscoreRunsGo true rest
    else c :: stripUnderscoreRunsGo false rest
  | false, '_' :: '_' :: '_' :: rest2 => stripUnderscoreRunsGo true rest2
  | false, c :: rest => c :: stripUnderscoreRunsGo false rest

def stripUnderscoreRuns (cs : List Char) : List Char :=
  stripUnderscoreRunsGo false cs

def isPunct (c : Char) : Bool :=
  c == ',' || c == '.' || c == '!' || c == '?' || c == ';' || c == ':'

/-- Whether the input, after an initial whitespace run, continues with one
of the punctuation characters `,.!?;:`. -/
def nextAfterWsIsPunct (cs : List Char) : Bool :=
  match cs.dropWhile isPySpace with
  | p :: _ => isPunct p
  | [] => false

/-- Stage 6: the substitution `\s+([,.!?;:])` to `\1`
(pdf_extractor.py line 215).  A whitespace character is deleted exactly when
the remaining input consists of further whitespace directly followed by a
punctuation character, which deletes precisely the matched `\s+` runs and
keeps the punctuation. -/
def fixSpaceBeforePunct : List Char → List Char
  | [] => []
  | c :: rest =>
    if isPySpace c && nextAfterWsIsPunct rest then fixSpaceBeforePunct rest
    else c :: fixSpaceBeforePunct rest

/-- Whether the input, after an initial whitespace run, continues with a
capital letter `[A-Z]`. -/
def nextAfterWsIsUpper (cs : List Char) : Bool :=
  match cs.dropWhile isPySpace with
  | u :: _ => u.isUpper
  | [] => false

/-- Stage 7: the substitution `([,.!?;:])\s*([A-Z])` to `\1 \2`
(pdf_extractor.py line 216): punctuation, an optional whitespace run, then a
capital letter become punctuation, exactly one space, the capital.
`skipWs` records that the matched whitespace run is being deleted, until the
capital of the match is reached and emitted. -/
def fixSpaceAfterPunctGo : Bool → List Char → List Char
  | _, [] => []
  | skipWs, c :: rest =>
    if skipWs then
      if isPySpace c then fixSpaceAfterPunctGo true rest
      else c :: fixSpaceAfterPunctGo false rest
    else if isPunct c && nextAfterWsIsUpper rest then
      c :: ' ' :: fixSpaceAfterPunctGo true rest
    else c :: fixSpaceAfterPunctGo false rest

def fixSpaceAfterPunct (cs : List Char) : List Char :=
  fixSpaceAfterPunctGo false cs

/-- Word character of the regex class `\w` (ASCII model), as used by the
word-boundary assertion `\b`. -/
def isWordChar (c : Char) : Bool := c.isAlpha || c.isDigit || c == '_'

/-- Whether a word boundary `\b` stands before a word character whose
predecessor is `prev` (`none` means start of text). -/
def boundaryBefore : Option Char → Bool
  | none => true
  | some p => !isWordChar p

/-- The lookahead `(?=[A-Z])`: the next character of the remaining input is
a capital letter. -/
def nextIsUpper : List Char → Bool
  | c2 :: _ => c2.isUpper
  | [] => false

/-- Stages 8 and 9: the substitutions `\b0(?=[A-Z])` to `O` and
`\b1(?=[A-Z])` to `I` (pdf_extractor.py lines 219-220), generalised over
the digit `d` and its replacement `r`.  `prev` is the character standing
before the scan position (`none` at the start); the lookahead consumes
nothing. -/
def fixDigitBeforeCap (d r : Char) : Option Char → List Char → List Char
  | _, [] => []
  | prev, c :: rest =>
    if c == d && boundaryBefore prev && nextIsUpper rest then
      r :: fixDigitBeforeCap d r (some r) rest
    else
      c :: fixDigitBeforeCap d r (some c) rest

/-- Model of `clean_extracted_text` (pdf_extractor.py lines 200-222):
the eight `re.sub` stages in source order, followed by `strip()`. -/
def clean_extracted_text (text : List Char) : List Char :=
  if text = [] then []
  else
    pyStrip (fixDigitBeforeCap '1' 'I' none (fixDigitBeforeCap '0' 'O' none
      (fixSpaceAfterPunct (fixSpaceBeforePunct
        (stripUnderscoreRuns (stripPipeRuns
          ((collapseSpaces (collapseNewlines text)).filter
            (fun c => c.toNat ≤ 127))))))))

/-- Whether the text contains an un-rewritten target of the substitution
`\b d (?=[A-Z])`: an occurrence of the digit `d` at a word boundary and
immediately followed by a capital letter.  `prev` is the character before
the scan position. -/
def hasBoundaryDigitCap (d : Char) : Option Char → List Char → Bool
  | _, [] => false
  | prev, c :: rest =>
    (c == d && boundaryBefore prev && nextIsUpper rest) ||
      hasBoundaryDigitCap d (some c) rest

/-- Whether the text contains the digit `d` immediately followed by a
capital letter, at any position (no boundary condition): the pattern the
claim, as written, says is always rewritten. -/
def hasDigitCapAnywhere (d : Char) : List Char → Bool
  | [] => false
  | c :: rest => (c == d && nextIsUpper rest) || hasDigitCapAnywhere d rest

/-- Python `str.split("\n")` helper: current line and remaining lines. -/
def splitNlCore : List Char → List Char × List (List Char)
  | [] => ([], [])
  | c :: rest =>
    if c == '\n' then ([], (splitNlCore rest).1 :: (splitNlCore rest).2)
    else (c :: (splitNlCore rest).1, (splitNlCore rest).2)

/-- Python `str.split("\n")`: always at least one (possibly empty) line. -/
def splitNl (cs : List Char) : List (List Char) :=
  (splitNlCore cs).1 :: (splitNlCore cs).2

/-- Python `"\n".join(lines)`. -/
def joinNl : List (List Char) → List Char
  | [] => []
  | [l] => l
  | l :: l2 :: ls => l ++ '\n' :: joinNl (l2 :: ls)

/-- The scan of gemini_api.py lines 181-184: index of the first line whose
strip starts with an opening brace. -/
def findStartIdx : List (List Char) → Option Nat
  | [] => none
  | l :: ls =>
    if listStartsWith (pyStrip l) ['{'] then some 0
    else (findStartIdx ls).map (· + 1)

/-- The scan of gemini_api.py lines 186-189: index of the last line whose
strip ends with a closing brace. -/
def findEndIdx : List (List Char) → Option Nat
  | [] => none
  | l :: ls =>
    match findEndIdx ls with
    | some j => some (j + 1)
    | none => if listEndsWith (pyStrip l) ['}'] then some 0 else none

/-- The three code-fence stripping steps of `clean_api_response`
(gemini_api.py lines 169-174). -/
def stripFences (t : List Char) : List Char :=
  let t1 := if listStartsWith (pyStrip t) "```json".toList
    then (pyStrip t).drop 7 else t
  let t2 := if listStartsWith (pyStrip t1) "```".toList
    then (pyStrip t1).drop 3 else t1
  if listEndsWith (pyStrip t2) "```".toList
    then (pyStrip t2).take ((pyStrip t2).length - 3) else t2

/-- The JSON-boundary location and slicing of `clean_api_response`
(gemini_api.py lines 176-192): when both a first brace-opening line and a
last brace-closing line exist, keep exactly the lines between them. -/
def sliceJson (t : List Char) : List Char :=
  match findStartIdx (splitNl t), findEndIdx (splitNl t) with
  | some i, some j => joinNl (((splitNl t).drop i).take (j + 1 - i))
  | _, _ => t

/-- Model of `clean_api_response` (gemini_api.py lines 166-194):
fence stripping, JSON boundary slicing, final `strip()`. -/
def clean_api_response (response_text : List Char) : List Char :=
  pyStrip (sliceJson (stripFences response_text))

/-- Concrete input for the C7 witness: a multi-line JSON object with
leading and trailing whitespace. -/
def c7Input : List Char :=
  ' ' :: '{' :: '\n' :: " \"a\": 1".toList ++ ['\n', '}', ' ', '\n']

/-- JSON values.  Numeric literals are kept as written: no claim inspects a
numeric value and the fallback record contains none. -/
inductive Json where
  | null
  | bool (b : Bool)
  | num (lit : List Char)
  | str (s : List Char)
  | arr (elems : List Json)
  | obj (members : List (List Char × Json))

/-- JSON whitespace accepted between tokens by `json.loads`. -/
def isJsonWs (c : Char) : Bool :=
  c == ' ' || c == '\t' || c == '\n' || c == '\r'

/-- Partially-built containers of the JSON reader. -/
inductive PFrame where
  | arrF (elems : List Json)
  | objF (members : List (List Char × Json)) (key : List Char)

/-- Scanner mode of the JSON reader. -/
inductive PMode where
  | expectValue
  | expectValueOrClose
  | expectKeyOrClose
  | expectKey
  | expectColon
  | afterValue
  | inString (isKey : Bool) (acc : List Char) (esc : Bool)
  | inStringU (isKey : Bool) (acc : List Char) (hex : List Char)
  | inNumber (acc : List Char)
  | inLiteral (rem : List Char) (v : Json)
  | failed

/-- Reader state: mode, container stack, completed top-level value. -/
structure PState where
  mode : PMode
  stack : List PFrame
  root : Option Json

/-- Record a completed value into the enclosing container, or as the
top-level result. -/
def pushValue (v : Json) (st : PState) : PState :=
  match st.stack with
  | [] => ⟨.afterValue, [], some v⟩
  | .arrF es :: rest => ⟨.afterValue, .arrF (es ++ [v]) :: rest, st.root⟩
  | .objF ms k :: rest => ⟨.afterValue, .objF (ms ++ [(k, v)]) k :: rest, st.root⟩

def hexVal (c : Char) : Option Nat :=
  if c.isDigit then some (c.toNat - 48)
  else if 'a' ≤ c && c ≤ 'f' then some (c.toNat - 87)
  else if 'A' ≤ c && c ≤ 'F' then some (c.toNat - 55)
  else none

def decodeHex (hex : List Char) : Char :=
  Char.ofNat (hex.foldl (fun n c => 16 * n + ((hexVal c).getD 0)) 0)

def unescapeChar (c : Char) : Option Char :=
  match c with
  | '"' => some '"'
  | '\\' => some '\\'
  | '/' => some '/'
  | 'n' => some '\n'
  | 't' => some '\t'
  | 'r' => some '\x0d'
  | 'b' => some '\x08'
  | 'f' => some '\x0c'
  | _ => none

def isNumChar (c : Char) : Bool :=
  c.isDigit || c == '.' || c == 'e' || c == 'E' || c == '+' || c == '-'

/-- Handle a character at a position where a value may start. -/
def stepValueStart (st : PState) (c : Char) : PState :=
  if c == '"' then ⟨.inString false [] false, st.stack, st.root⟩
  else if c == '{' then ⟨.expectKeyOrClose, .objF [] [] :: st.stack, st.root⟩
  else if c == '[' then ⟨.expectValueOrClose, .arrF [] :: st.stack, st.root⟩
  else if c == 'n' then ⟨.inLiteral "ull".toList .null, st.stack, st.root⟩
  else if c == 't' then ⟨.inLiteral "rue".toList (.bool true), st.stack, st.root⟩
  else if c == 'f' then ⟨.inLiteral "alse".toList (.bool false), st.stack, st.root⟩
  else if c.isDigit || c == '-' then ⟨.inNumber [c], st.stack, st.root⟩
  else ⟨.failed, st.stack, st.root⟩

/-- Handle a character directly after a completed value. -/
def stepAfterValue (st : PState) (c : Char) : PState :=
  if isJsonWs c then st
  else if c == ',' then
    match st.stack with
    | .arrF _ :: _ => ⟨.expectValue, st.stack, st.root⟩
    | .objF _ _ :: _ => ⟨.expectKey, st.stack, st.root⟩
    | [] => ⟨.failed, st.stack, st.root⟩
  else if c == ']' then
    match st.stack with
    | .arrF es :: rest => pushValue (.arr es) ⟨st.mode, rest, st.root⟩
    | _ => ⟨.failed, st.stack, st.root⟩
  else if c == '}' then
    match st.stack with
    | .objF ms _ :: rest => pushValue (.obj ms) ⟨st.mode, rest, st.root⟩
    | _ => ⟨.failed, st.stack, st.root⟩
  else ⟨.failed, st.stack, st.root⟩

/-- One character of the JSON reader (model of `json.loads`, strict JSON
with the number grammar relaxed to any run of digit, dot, sign and exponent
characters). -/
def parseStep (st : PState) (c : Char) : PState :=
  match st.mode with
  | .failed => st
  | .expectValue => if isJsonWs c then st else stepValueStart st c
  | .expectValueOrClose =>
    if isJsonWs c then st
    else if c == ']' then
      match st.stack with
      | .arrF es :: rest => pushValue (.arr es) ⟨st.mode, rest, st.root⟩
      | _ => ⟨.failed, st.stack, st.root⟩
    else stepValueStart st c
  | .expectKeyOrClose =>
    if isJsonWs c then st
    else if c == '"' then ⟨.inString true [] false, st.stack, st.root⟩
    else if c == '}' then
      match st.stack with
      | .objF ms _ :: rest => pushValue (.obj ms) ⟨st.mode, rest, st.root⟩
      | _ => ⟨.failed, st.stack, st.root⟩
    else ⟨.failed, st.stack, st.root⟩
  | .expectKey =>
    if isJsonWs c then st
    else if c == '"' then ⟨.inString true [] false, st.stack, st.root⟩
    else ⟨.failed, st.stack, st.root⟩
  | .expectColon =>
    if isJsonWs c then st
    else if c == ':' then ⟨.expectValue, st.stack, st.root⟩
    else ⟨.failed, st.stack, st.root⟩
  | .afterValue => stepAfterValue st c
  | .inString isKey acc esc =>
    if esc then
      if c == 'u' then ⟨.inStringU isKey acc [], st.stack, st.root⟩
      else
        match unescapeChar c with
        | some d => ⟨.inString isKey (acc ++ [d]) false, st.stack, st.root⟩
        | none => ⟨.failed, st.stack, st.root⟩
    else if c == '"' then
      if isKey then
        match st.stack with
        | .objF ms _ :: rest => ⟨.expectColon, .objF ms acc :: rest, st.root⟩
        | _ => ⟨.failed, st.stack, st.root⟩
      else pushValue (.str acc) st
    else if c == '\\' then ⟨.inString isKey acc true, st.stack, st.root⟩
    else if c.toNat < 32 then ⟨.failed, st.stack, st.root⟩
    else ⟨.inString isKey (acc ++ [c]) false, st.stack, st.root⟩
  | .inStringU isKey acc hex =>
    match hexVal c with
    | none => ⟨.failed, st.stack, st.root⟩
    | some _ =>
      if hex.length == 3 then
        ⟨.inString isKey (acc ++ [decodeHex (hex ++ [c])]) false, st.stack, st.root⟩
      else ⟨.inStringU isKey acc (hex ++ [c]), st.stack, st.root⟩
  | .inNumber acc =>
    if isNumChar c then ⟨.inNumber (acc ++ [c]), st.stack, st.root⟩
    else stepAfterValue (pushValue (.num acc) st) c
  | .inLiteral rem v =>
    match rem with
    | [r] => if c == r then pushValue v st else ⟨.failed, st.stack, st.root⟩
    | r :: rs =>
      if c == r then ⟨.inLiteral rs v, st.stack, st.root⟩
      else ⟨.failed, st.stack, st.root⟩
    | [] => ⟨.failed, st.stack, st.root⟩

def startState : PState := ⟨.expectValue, [], none⟩

/-- Close a trailing number and judge acceptance at end of input. -/
def finishParse (st : PState) : Option Json :=
  let st2 :=
    match st.mode with
    | .inNumber acc => pushValue (.num acc) st
    | _ => st
  match st2.mode, st2.stack, st2.root with
  | .afterValue, [], some j => some j
  | _, _, _ => none

/-- Model of `json.loads` on character lists: a single left-to-right scan
with an explicit container stack. -/
def json_loads (cs : List Char) : Option Json :=
  finishParse (cs.foldl parseStep startState)

def hexDigitChar (n : Nat) : Char :=
  if n < 10 then Char.ofNat (48 + n) else Char.ofNat (87 + n)

def hex4 (n : Nat) : List Char :=
  [hexDigitChar (n / 4096 % 16), hexDigitChar (n / 256 % 16),
   hexDigitChar (n / 16 % 16), hexDigitChar (n % 16)]

/-- String escaping of `json.dumps` (`ensure_ascii=True`). -/
def escapeJsonChar (c : Char) : List Char :=
  if c == '"' then ['\\', '"']
  else if c == '\\' then ['\\', '\\']
  else if c == '\n' then ['\\', 'n']
  else if c == '\t' then ['\\', 't']
  else if c == '\x0d' then ['\\', 'r']
  else if c == '\x08' then ['\\', 'b']
  else if c == '\x0c' then ['\\', 'f']
  else if c.toNat < 32 || c.toNat > 126 then '\\' :: 'u' :: hex4 c.toNat
  else [c]

def dumpString (s : List Char) : List Char :=
  '"' :: ((s.map escapeJsonChar).flatten ++ ['"'])

/-- Pending serialisation work for `json.dumps`. -/
inductive DReq where
  | val (lvl : Nat) (j : Json)
  | elems (lvl : Nat) (es : List Json)
  | members (lvl : Nat) (ms : List (List Char × Json))

/-- Model of `json.dumps(..., indent=2)`.  The fuel bounds the recursion
depth of the serialiser; it is structural so that concrete serialisations
compute, and every use below supplies fuel far above the fixed nesting of
the one record the source serialises. -/
def dumpGo : Nat → DReq → List Char
  | 0, _ => []
  | fuel + 1, req =>
    match req with
    | .val lvl j =>
      match j with
      | .null => "null".toList
      | .bool b => if b then "true".toList else "false".toList
      | .num lit => lit
      | .str s => dumpString s
      | .arr es =>
        match es with
        | [] => ['[', ']']
        | e :: es2 =>
          '[' :: '\n' :: (dumpGo fuel (.elems (lvl + 2) (e :: es2)) ++
            ('\n' :: (List.replicate lvl ' ' ++ [']'])))
      | .obj ms =>
        match ms with
        | [] => ['\x7b', '\x7d']
        | m :: ms2 =>
          '\x7b' :: '\n' :: (dumpGo fuel (.members (lvl + 2) (m :: ms2)) ++
            ('\n' :: (List.replicate lvl ' ' ++ ['\x7d'])))
    | .elems lvl es =>
      match es with
      | [] => []
      | [e] => List.replicate lvl ' ' ++ dumpGo fuel (.val lvl e)
      | e :: e2 :: es2 =>
        List.replicate lvl ' ' ++ (dumpGo fuel (.val lvl e) ++
          (',' :: '\n' :: dumpGo fuel (.elems lvl (e2 :: es2))))
    | .members lvl ms =>
      match ms with
      | [] => []
      | [m] =>
        List.replicate lvl ' ' ++ (dumpString m.1 ++
          (':' :: ' ' :: dumpGo fuel (.val lvl m.2)))
      | m :: m2 :: ms2 =>
        List.replicate lvl ' ' ++ (dumpString m.1 ++
          (':' :: ' ' :: (dumpGo fuel (.val lvl m.2) ++
            (',' :: '\n' :: dumpGo fuel (.members lvl (m2 :: ms2))))))

def json_dumps (j : Json) : List Char :=
  dumpGo 64 (.val 0 j)

/-- Leftmost regex search: try a match at each position in turn. -/
def reSearch (matchAt : List Char → Option (List Char)) : List Char → Option (List Char)
  | [] => matchAt []
  | c :: rest =>
    match matchAt (c :: rest) with
    | some m => some m
    | none => reSearch matchAt rest

/-- Greedy match of `(CP\d+[A-Z]*)` with `re.IGNORECASE` at one position:
`c`/`C` then `p`/`P`, at least one digit, then letters (the class `[A-Z]`
is case-insensitive here). -/
def cpMatchAt : List Char → Option (List Char)
  | c :: p :: rest =>
    if (c == 'C' || c == 'c') && (p == 'P' || p == 'p') then
      match rest with
      | d :: _ =>
        if d.isDigit then
          some (c :: p :: rest.takeWhile Char.isDigit ++
            (rest.dropWhile Char.isDigit).takeWhile Char.isAlpha)
        else none
      | [] => none
    else none
  | _ => none

def charIEq (a b : Char) : Bool := a.toLower == b.toLower

/-- Case-insensitive match of a literal pattern, returning the matched
original characters and the remaining input. -/
def matchCaseI : List Char → List Char → Option (List Char × List Char)
  | cs, [] => some ([], cs)
  | c :: cs, p :: ps =>
    if charIEq c p then (matchCaseI cs ps).map (fun m => (c :: m.1, m.2))
    else none
  | [], _ :: _ => none

/-- Greedy match of `(Letter \d+[A-Z]*)` with `re.IGNORECASE` at one
position; the captured group keeps the original casing. -/
def letterMatchAt (cs : List Char) : Option (List Char) :=
  match matchCaseI cs "Letter ".toList with
  | some (m, rest) =>
    match rest with
    | d :: _ =>
      if d.isDigit then
        some (m ++ rest.takeWhile Char.isDigit ++
          (rest.dropWhile Char.isDigit).takeWhile Char.isAlpha)
      else none
    | [] => none
  | none => none

/-- Greedy match of `\$[\d,]+\.?\d*` at one position. -/
def amountMatchAt : List Char → Option (List Char)
  | '$' :: rest =>
    match rest with
    | d :: _ =>
      if d.isDigit || d == ',' then
        let run := rest.takeWhile (fun x => x.isDigit || x == ',')
        match rest.dropWhile (fun x => x.isDigit || x == ',') with
        | '.' :: rest2 => some ('$' :: run ++ '.' :: rest2.takeWhile Char.isDigit)
        | _ => some ('$' :: run)
      else none
    | [] => none
  | _ => none

def toUpperL (cs : List Char) : List Char := cs.map Char.toUpper

/-- The `fallback_data` dictionary built by `create_fallback_response`
(gemini_api.py lines 247-290): notice type and amount recovered by regex
search over the source text, all other fields fixed boilerplate. -/
def fallback_data (text : List Char) : Json :=
  let notice_type0 :=
    match reSearch cpMatchAt text with
    | some m => toUpperL m
    | none => []
  let notice_type :=
    match reSearch letterMatchAt text with
    | some m => m
    | none => notice_type0
  let amount_due :=
    match reSearch amountMatchAt text with
    | some m => m
    | none => []
  Json.obj
    [("noticeType".toList, .str notice_type),
     ("noticeFor".toList, .str []),
     ("address".toList, .str []),
     ("ssn".toList, .str []),
     ("amountDue".toList, .str amount_due),
     ("payBy".toList, .str []),
     ("breakdown".toList, .arr []),
     ("noticeMeaning".toList,
       .str "This appears to be a tax notice requiring your attention.".toList),
     ("whyText".toList,
       .str "Unable to determine specific reason. Please review the document carefully.".toList),
     ("fixSteps".toList, .obj
       [("agree".toList,
         .str "Contact the IRS at the number provided to arrange payment.".toList),
        ("disagree".toList,
         .str "Contact the IRS to dispute the notice or request additional information.".toList)]),
     ("paymentOptions".toList, .obj
       [("online".toList, .str "www.irs.gov/payments".toList),
        ("mail".toList, .str "Check the notice for mailing instructions".toList),
        ("plan".toList, .str "www.irs.gov/paymentplan".toList)]),
     ("helpInfo".toList, .obj
       [("contact".toList, .str "Check the notice for specific contact information".toList),
        ("advocate".toList, .str "Taxpayer Advocate Service: 1-877-777-4778".toList)])]

/-- Model of `create_fallback_response`: the serialised fallback record
(`json.dumps(fallback_data, indent=2)`). -/
def create_fallback_response (text : List Char) : List Char :=
  json_dumps (fallback_data text)

/-- Mapping lookup on a parsed JSON object; as in a Python dict built by
`json.loads`, a repeated key keeps its last binding. -/
def jsonLookup (j : Json) (k : List Char) : Option Json :=
  match j with
  | .obj ms => (ms.reverse.find? (fun m => m.1 == k)).map (fun m => m.2)
  | _ => none

/-- The twelve required top-level keys (gemini_api.py lines 219-223). -/
def required_fields : List (List Char) :=
  ["noticeType".toList, "noticeFor".toList, "address".toList, "ssn".toList,
   "amountDue".toList, "payBy".toList, "breakdown".toList,
   "noticeMeaning".toList, "whyText".toList, "fixSteps".toList,
   "paymentOptions".toList, "helpInfo".toList]

/-- The field checks of `validate_analysis_result` (gemini_api.py lines
219-241) on a parsed value: all twelve keys present, `breakdown` a list,
the three nested fields objects.  A non-object value fails, as the
source's membership and `isinstance` checks do for the values `json.loads`
can return. -/
def hasRequiredFields (j : Json) : Bool :=
  match j with
  | .obj _ =>
    required_fields.all (fun f => (jsonLookup j f).isSome) &&
    (match jsonLookup j "breakdown".toList with
     | some (.arr _) => true
     | _ => false) &&
    (match jsonLookup j "fixSteps".toList with
     | some (.obj _) => true
     | _ => false) &&
    (match jsonLookup j "paymentOptions".toList with
     | some (.obj _) => true
     | _ => false) &&
    (match jsonLookup j "helpInfo".toList with
     | some (.obj _) => true
     | _ => false)
  | _ => false

/-- Model of `validate_analysis_result` (gemini_api.py lines 214-245):
parse, then check the schema.  (The function is defined in the source but
never called.) -/
def validate_analysis_result (json_string : List Char) : Bool :=
  match json_loads json_string with
  | some j => hasRequiredFields j
  | none => false

/-- Step 1 of `fix_common_json_issues` (gemini_api.py lines 199-201): the
three `replace` calls escaping literal newline, tab and carriage return. -/
def escapeCtrl (cs : List Char) : List Char :=
  (cs.map (fun c =>
    if c == '\n' then ['\\', 'n']
    else if c == '\t' then ['\\', 't']
    else if c == '\x0d' then ['\\', 'r']
    else [c])).flatten

/-- Step 2 (line 204): `(?<!\\)"(?=[^,}])` to `\\"` — a quote not preceded
by a backslash and followed by a character other than comma or closing
brace receives a backslash. -/
def fixQuotes (prev : Option Char) : List Char → List Char
  | [] => []
  | '"' :: c2 :: rest =>
    if prev != some '\\' && !(c2 == ',') && !(c2 == '}') then
      '\\' :: '"' :: fixQuotes (some '"') (c2 :: rest)
    else '"' :: fixQuotes (some '"') (c2 :: rest)
  | c :: rest => c :: fixQuotes (some c) rest

/-- Step 3 (line 207): `,(\s*[}\]])` to `\1` — a comma whose following
whitespace run ends at a closing bracket is deleted. -/
def fixTrailingCommas : List Char → List Char
  | [] => []
  | ',' :: rest =>
    if (match rest.dropWhile isPySpace with
        | b :: _ => b == '}' || b == ']'
        | [] => false) then
      fixTrailingCommas rest
    else ',' :: fixTrailingCommas rest
  | c :: rest => c :: fixTrailingCommas rest

/-- Step 4 (line 210): `}\s*{` to `},{` — a comma is inserted between a
closing and an opening brace separated only by whitespace, which is
dropped.  `pending` holds the whitespace collected since a closing
brace. -/
def fixMissingCommasGo (pending : Option (List Char)) : List Char → List Char
  | [] =>
    match pending with
    | some ws => ws
    | none => []
  | c :: rest =>
    match pending with
    | some ws =>
      if isPySpace c then fixMissingCommasGo (some (ws ++ [c])) rest
      else if c == '{' then ',' :: '{' :: fixMissingCommasGo none rest
      else if c == '}' then ws ++ '}' :: fixMissingCommasGo (some []) rest
      else ws ++ c :: fixMissingCommasGo none rest
    | none =>
      if c == '}' then '}' :: fixMissingCommasGo (some []) rest
      else c :: fixMissingCommasGo none rest

/-- Model of `fix_common_json_issues` (gemini_api.py lines 196-212). -/
def fix_common_json_issues (json_string : List Char) : List Char :=
  fixMissingCommasGo none (fixTrailingCommas (fixQuotes none (escapeCtrl json_string)))

/-- Outcome of one network attempt of `call_gemini_api`:
a raised-and-caught request error (timeout, connection failure, or any
other exception), a 200 response without the expected
`candidates[0].content.parts[0].text` path, or the generated text. -/
inductive AttemptOutcome where
  | requestError
  | badShape
  | generated (s : List Char)

/-- The retry loop of `call_gemini_api` (gemini_api.py lines 59-116).
The list holds the outcome of each attempt if made; its length is the
`max_retries` bound (default 3).  On the last attempt an unparseable
response goes through `fix_common_json_issues`, and on exhaustion the
fallback record is returned (line 116). -/
def apiAttemptLoop (text : List Char) : List AttemptOutcome → Option (List Char)
  | [] => some (create_fallback_response text)
  | [outcome] =>
    match outcome with
    | .generated s =>
      let cleaned := clean_api_response s
      if (json_loads cleaned).isSome then some cleaned
      else
        let fixed := fix_common_json_issues cleaned
        if (json_loads fixed).isSome then some fixed
        else some (create_fallback_response text)
    | _ => some (create_fallback_response text)
  | outcome :: rest =>
    match outcome with
    | .generated s =>
      let cleaned := clean_api_response s
      if (json_loads cleaned).isSome then some cleaned
      else apiAttemptLoop text rest
    | _ => apiAttemptLoop text rest

/-- Model of `call_gemini_api` (gemini_api.py lines 16-116): `None` when
the API key is unset (line 18) or the text is empty or shorter than 50
characters after stripping (line 22); otherwise the retry loop. -/
def call_gemini_api (apiKey text : List Char) (attempts : List AttemptOutcome) :
    Option (List Char) :=
  if apiKey = [] then none
  else if text = [] || (pyStrip text).length < 50 then none
  else apiAttemptLoop text attempts

/-- The notice-type string the fallback record carries for a given source
text (gemini_api.py lines 252-261). -/
def noticeTypeOf (text : List Char) : List Char :=
  match reSearch letterMatchAt text with
  | some m => m
  | none =>
    match reSearch cpMatchAt text with
    | some m => toUpperL m
    | none => []

/-- The amount-due string the fallback record carries for a given source
text (gemini_api.py lines 263-266). -/
def amountOf (text : List Char) : List Char :=
  match reSearch amountMatchAt text with
  | some m => m
  | none => []

/-- The fallback record as a function of its two text-derived fields. -/
def fallbackRecord (nt ad : List Char) : Json :=
  Json.obj
    [("noticeType".toList, .str nt),
     ("noticeFor".toList, .str []),
     ("address".toList, .str []),
     ("ssn".toList, .str []),
     ("amountDue".toList, .str ad),
     ("payBy".toList, .str []),
     ("breakdown".toList, .arr []),
     ("noticeMeaning".toList,
       .str "This appears to be a tax notice requiring your attention.".toList),
     ("whyText".toList,
       .str "Unable to determine specific reason. Please review the document carefully.".toList),
     ("fixSteps".toList, .obj
       [("agree".toList,
         .str "Contact the IRS at the number provided to arrange payment.".toList),
        ("disagree".toList,
         .str "Contact the IRS to dispute the notice or request additional information.".toList)]),
     ("paymentOptions".toList, .obj
       [("online".toList, .str "www.irs.gov/payments".toList),
        ("mail".toList, .str "Check the notice for mailing instructions".toList),
        ("plan".toList, .str "www.irs.gov/paymentplan".toList)]),
     ("helpInfo".toList, .obj
       [("contact".toList, .str "Check the notice for specific contact information".toList),
        ("advocate".toList, .str "Taxpayer Advocate Service: 1-877-777-4778".toList)])]

/-- Segments of the serialised fallback record around its two
text-dependent string values. -/
def fbA : List Char := "\x7b\n  \"noticeType\": \"".toList

def fbB : List Char :=
  ("  \"noticeFor\": \"\",\n  \"address\": \"\",\n  \"ssn\": \"\",\n  \"".toList ++
  "amountDue\": \"".toList)

def fbM6 : List Char :=
  ("  \"payBy\": \"\",\n  \"breakdown\": [],\n  \"noticeMeaning\": \"Thi".toList ++
  "s appears to be a tax notice requiring your attention.\",\n  \"whyTe".toList ++
  "xt\": \"Unable to determine specific reason. Please review the docum".toList ++
  "ent carefully.\",\n  \"fixSteps\": \x7b\n    \"agree\": \"Contact th".toList ++
  "e IRS at the number provided to arrange payment.\",\n    \"disagree\"".toList ++
  ": \"Contact the IRS to dispute the notice or request additional info".toList ++
  "rmation.\"\n  \x7d,\n  \"paymentOptions\": \x7b\n    \"online\": \"w".toList ++
  "ww.irs.gov/payments\",\n    \"mail\": \"Check the notice for mailing".toList ++
  " instructions\",\n    \"plan\": \"www.irs.gov/paymentplan\"\n  \x7d,".toList ++
  "\n  \"helpInfo\": \x7b\n    \"contact\": \"Check the notice for spec".toList ++
  "ific contact information\",\n    \"advocate\": \"Taxpayer Advocate S".toList ++
  "ervice: 1-877-777-4778\"\n  \x7d".toList)

def fbC : List Char := "\n\x7d".toList

/-- Characters that `json.dumps` emits unescaped and that the reader keeps
verbatim inside a string literal: printable ASCII other than the quote and
the backslash. -/
def plainChar (c : Char) : Bool :=
  32 ≤ c.toNat && c.toNat ≤ 126 && c != '"' && c != '\\'

/-- A raw LLM reply that is valid JSON but carries only one of the twelve
required keys. -/
def c1Attempt : List Char := "\x7b\"noticeType\": \"CP14\"\x7d".toList

/-- A source text long enough to pass the 50-character gate. -/
def c1Text : List Char :=
  "this source text is long enough to pass the fifty character gate".toList

/-- One PDF page as seen by the three extraction methods of
`extract_text_from_pdf_enhanced` (pdf_extractor.py lines 27-52): each field
is the text the method would produce, or `none` when the call raises (the
source catches the exception and keeps the previous `page_text`). -/
structure Page where
  m1 : Option (List Char)
  m2 : Option (List Char)
  m3 : Option (List Char)

/-- Method 3 fallthrough (lines 46-52): runs only while the page text so
far strips to empty. -/
def pageStep3 (cur : List Char) (p : Page) : List Char × Nat :=
  match p.m3 with
  | some t3 => if (pyStrip t3).isEmpty then (t3, 0) else (t3, 1)
  | none => (cur, 0)

/-- Method 2 fallthrough (lines 36-43). -/
def pageStep2 (cur : List Char) (p : Page) : List Char × Nat :=
  match p.m2 with
  | some t2 => if (pyStrip t2).isEmpty then pageStep3 t2 p else (t2, 1)
  | none => pageStep3 cur p

/-- The text a page contributes and its `pages_with_text` increment
(lines 23-52). -/
def pageTextAndCount (p : Page) : List Char × Nat :=
  match p.m1 with
  | some t1 => if (pyStrip t1).isEmpty then pageStep2 t1 p else (t1, 1)
  | none => pageStep2 [] p

/-- The page loop (lines 23-54): page texts joined by blank lines, and the
number of pages that produced non-blank text. -/
def extractPages : List Page → List Char × Nat
  | [] => ([], 0)
  | p :: rest =>
    ((pageTextAndCount p).1 ++ '\n' :: '\n' :: (extractPages rest).1,
     (pageTextAndCount p).2 + (extractPages rest).2)

/-- Model of `extract_text_from_pdf_enhanced` (pdf_extractor.py lines
9-85).  `doc` is `none` when `fitz.open` raises on the byte buffer (the
outer `except` then returns `None`), and `ocr` is the result of
`extract_text_with_ocr` (`none` for unavailable libraries or total
failure).  The function is total: every branch of the source returns. -/
def extract_text_from_pdf_enhanced (pdfBytes : List Nat)
    (doc : Option (List Page)) (ocr : Option (List Char)) :
    Option (List Char) :=
  if pdfBytes = [] then none
  else
    match doc with
    | none => none
    | some pages =>
      let extracted := clean_extracted_text (extractPages pages).1
      if is_meaningful_text extracted && decide (0 < (extractPages pages).2) then
        some extracted
      else
        match ocr with
        | some ocrText =>
          if !ocrText.isEmpty && is_meaningful_text ocrText then some ocrText
          else if !(pyStrip extracted).isEmpty then some extracted
          else if !ocrText.isEmpty && !(pyStrip ocrText).isEmpty then some ocrText
          else none
        | none =>
          if !(pyStrip extracted).isEmpty then some extracted
          else none

/-- Claim C2.  The claim (and spec section 4.2) says the keyword exception
overrides the 0.4 rejection bar: a text of trimmed length at least 30 that
contains a tax keyword and has alphanumeric ratio strictly between 0.25 and
0.4 should be accepted.  The code instead returns `False` unconditionally
whenever the ratio is below 0.4 (pdf_extractor.py line 240) before the
keyword check is reached, so the keyword branch with its 0.25 bound is dead
for every such input.  On `c2Input` all of the claim's premises hold
(trimmed length 30, keyword "irs" present, ratio 0.3 strictly between 0.25
and 0.4) yet `is_meaningful_text` returns `false`, where the claim requires
`true`. -/
theorem is_meaningful_keyword_exception_dead :
    (pyStrip c2Input).length = 30 ∧
    containsSub (toLowerL c2Input) "irs".toList = true ∧
    ((c2Input.filter Char.isAlpha).length +
      (c2Input.filter Char.isDigit).length) = 9 ∧
    (c2Input.filter (fun c => !(c == ' ' || c == '\n' || c == '\t'))).length = 30 ∧
    is_meaningful_text c2Input = false := by
  decide

theorem hasBDC_congr (d : Char) (p1 p2 : Option Char) (cs : List Char)
    (h : boundaryBefore p1 = boundaryBefore p2) :
    hasBoundaryDigitCap d p1 cs = hasBoundaryDigitCap d p2 cs := by
  cases cs with
  | nil => rfl
  | cons c rest => simp [hasBoundaryDigitCap, h]

/-- A whitespace character is never a word character. -/
theorem isPySpace_not_word (c : Char) (h : isPySpace c = true) :
    isWordChar c = false := by
  simp only [isPySpace, Bool.or_eq_true, beq_iff_eq] at h
  rcases h with (((((h | h) | h) | h) | h) | h) <;> subst h <;> decide

/-- After the substitution of `d` into `r`, no boundary occurrence of `d`
before a capital remains. -/
theorem fixDigit_no_target (d r : Char) (hd : isWordChar d = true)
    (hr : (r == d) = false) :
    ∀ (cs : List Char) (prev : Option Char),
      hasBoundaryDigitCap d prev (fixDigitBeforeCap d r prev cs) = false := by
  intro cs
  induction cs with
  | nil => intro prev; rfl
  | cons c rest ih =>
    intro prev
    by_cases hcond : (c == d && boundaryBefore prev && nextIsUpper rest) = true
    · simp only [fixDigitBeforeCap, hcond, if_true]
      simp only [hasBoundaryDigitCap, hr, Bool.false_and, Bool.false_or]
      exact ih (some r)
    · simp only [fixDigitBeforeCap, hcond, if_false]
      simp only [hasBoundaryDigitCap, Bool.or_eq_false_iff]
      refine ⟨?_, ih (some c)⟩
      by_cases hc1 : c = d
      · subst hc1
        cases hb : boundaryBefore prev with
        | false => simp [hb]
        | true =>
          cases hnu : nextIsUpper rest with
          | true => exact absurd (by simp [hb, hnu]) hcond
          | false =>
            have hout : nextIsUpper (fixDigitBeforeCap c r (some c) rest) = false := by
              cases rest with
              | nil => rfl
              | cons c2 rest2 =>
                have hbb : boundaryBefore (some c) = false := by
                  simp [boundaryBefore, hd]
                simp only [fixDigitBeforeCap, hbb, Bool.false_and, Bool.and_false,
                  if_false]
                simp only [nextIsUpper] at hnu ⊢
                exact hnu
            simp [hout]
      · have hcf : (c == d) = false := beq_eq_false_iff_ne.mpr hc1
        simp [hcf]

/-- The substitution of `d2` into `r2` creates no new boundary occurrence
of a different digit `d` before a capital: `r2` is a word character exactly
when `d2` is, and a character directly after a word character such as `d`
is never replaced. -/
theorem fixDigit_preserves_no_target (d d2 r2 : Char)
    (hd : isWordChar d = true) (hr2d : (r2 == d) = false)
    (hw : isWordChar r2 = isWordChar d2) :
    ∀ (cs : List Char) (prev : Option Char),
      hasBoundaryDigitCap d prev cs = false →
      hasBoundaryDigitCap d prev (fixDigitBeforeCap d2 r2 prev cs) = false := by
  intro cs
  induction cs with
  | nil => intro prev _; rfl
  | cons c rest ih =>
    intro prev h
    simp only [hasBoundaryDigitCap, Bool.or_eq_false_iff] at h
    obtain ⟨h1, h2⟩ := h
    by_cases hcond : (c == d2 && boundaryBefore prev && nextIsUpper rest) = true
    · have hc2 : c = d2 := by
        have := ((Bool.and_eq_true _ _).mp ((Bool.and_eq_true _ _).mp hcond).1).1
        exact beq_iff_eq.mp this
      simp only [fixDigitBeforeCap, hcond, if_true]
      simp only [hasBoundaryDigitCap, hr2d, Bool.false_and, Bool.false_or]
      have hb : boundaryBefore (some r2) = boundaryBefore (some c) := by
        simp [boundaryBefore, hw, hc2]
      have h2P : hasBoundaryDigitCap d (some r2) rest = false := by
        rw [hasBDC_congr d (some r2) (some c) rest hb]
        exact h2
      exact ih (some r2) h2P
    · simp only [fixDigitBeforeCap, hcond, if_false]
      simp only [hasBoundaryDigitCap, Bool.or_eq_false_iff]
      refine ⟨?_, ih (some c) h2⟩
      by_cases hc1 : c = d
      · subst hc1
        cases hb : boundaryBefore prev with
        | false => simp [hb]
        | true =>
          have hnu : nextIsUpper rest = false := by
            simp only [hb, Bool.and_true, Bool.true_and, beq_self_eq_true] at h1
            exact h1
          have hout : nextIsUpper (fixDigitBeforeCap d2 r2 (some c) rest) = false := by
            cases rest with
            | nil => rfl
            | cons c2 rest2 =>
              have hbb : boundaryBefore (some c) = false := by
                simp [boundaryBefore, hd]
              simp only [fixDigitBeforeCap, hbb, Bool.false_and, Bool.and_false,
                if_false]
              simp only [nextIsUpper] at hnu ⊢
              exact hnu
          simp [hout]
      · have hcf : (c == d) = false := beq_eq_false_iff_ne.mpr hc1
        simp [hcf]

/-- Dropping a leading whitespace run keeps the absence of boundary
targets: the boundary status at the new start is unchanged, whitespace not
being word characters. -/
theorem hasBDC_dropWhile (d : Char) :
    ∀ (cs : List Char) (prev : Option Char),
      boundaryBefore prev = true →
      hasBoundaryDigitCap d prev cs = false →
      hasBoundaryDigitCap d none (cs.dropWhile isPySpace) = false := by
  intro cs
  induction cs with
  | nil => intro prev _ _; rfl
  | cons c rest ih =>
    intro prev hprev h
    simp only [hasBoundaryDigitCap, Bool.or_eq_false_iff] at h
    obtain ⟨h1, h2⟩ := h
    cases hsp : isPySpace c with
    | true =>
      rw [List.dropWhile_cons_of_pos hsp]
      have hb : boundaryBefore (some c) = true := by
        simp [boundaryBefore, isPySpace_not_word c hsp]
      exact ih (some c) hb h2
    | false =>
      rw [List.dropWhile_cons_of_neg (by simp [hsp])]
      rw [hasBDC_congr d none prev (c :: rest) (by rw [hprev]; rfl)]
      simp only [hasBoundaryDigitCap, Bool.or_eq_false_iff]
      exact ⟨h1, h2⟩

/-- Removing an all-whitespace suffix keeps the absence of boundary
targets. -/
theorem hasBDC_append_ws (d : Char) :
    ∀ (kept ws : List Char) (prev : Option Char),
      hasBoundaryDigitCap d prev (kept ++ ws) = false →
      hasBoundaryDigitCap d prev kept = false := by
  intro kept
  induction kept with
  | nil => intro ws prev _; rfl
  | cons c k ih =>
    intro ws prev h
    simp only [List.cons_append, hasBoundaryDigitCap, Bool.or_eq_false_iff] at h
    obtain ⟨h1, h2⟩ := h
    simp only [hasBoundaryDigitCap, Bool.or_eq_false_iff]
    refine ⟨?_, ih ws (some c) h2⟩
    cases k with
    | nil => simp [nextIsUpper]
    | cons x xs =>
      simp only [List.cons_append, nextIsUpper] at h1 ⊢
      exact h1

/-- Stripping leading and trailing whitespace keeps the absence of boundary
targets. -/
theorem hasBDC_pyStrip (d : Char) (cs : List Char)
    (h : hasBoundaryDigitCap d none cs = false) :
    hasBoundaryDigitCap d none (pyStrip cs) = false := by
  have h1 : hasBoundaryDigitCap d none (cs.dropWhile isPySpace) = false :=
    hasBDC_dropWhile d cs none rfl h
  set a := cs.dropWhile isPySpace with ha
  have hsplit : a = (a.reverse.dropWhile isPySpace).reverse ++
      (a.reverse.takeWhile isPySpace).reverse := by
    have := List.takeWhile_append_dropWhile (p := isPySpace) (l := a.reverse)
    calc a = a.reverse.reverse := (List.reverse_reverse a).symm
    _ = (a.reverse.takeWhile isPySpace ++ a.reverse.dropWhile isPySpace).reverse := by
          rw [this]
    _ = (a.reverse.dropWhile isPySpace).reverse ++
          (a.reverse.takeWhile isPySpace).reverse := by
          rw [List.reverse_append]
  rw [hsplit] at h1
  exact hasBDC_append_ws d _ _ none h1

/-- Claim C9 (amended).  In the output of `clean_extracted_text` no digit 0
standing at a word boundary directly before a capital letter remains, and
no digit 1 standing at a word boundary directly before a capital letter
remains: every such occurrence was rewritten to `O` respectively `I` by the
final two substitutions, the first substitution creates no target for the
second, and the final `strip()` creates no new target.  (The claim as
written, without the word-boundary condition, is refuted by
`clean_extracted_keeps_digit_after_word_char` below.) -/
theorem clean_extracted_text_rewrites_boundary_confusions (text : List Char) :
    hasBoundaryDigitCap '0' none (clean_extracted_text text) = false ∧
    hasBoundaryDigitCap '1' none (clean_extracted_text text) = false := by
  unfold clean_extracted_text
  by_cases h : text = []
  · rw [if_pos h]
    exact ⟨rfl, rfl⟩
  · rw [if_neg h]
    constructor
    · apply hasBDC_pyStrip
      apply fixDigit_preserves_no_target '0' '1' 'I' (by decide) (by decide) (by decide)
      apply fixDigit_no_target '0' 'O' (by decide) (by decide)
    · apply hasBDC_pyStrip
      apply fixDigit_no_target '1' 'I' (by decide) (by decide)

/-- Claim C9, counterexample to the claim as stated.  In the input `10A`
the digit 0 is immediately followed by the capital letter A, so by the
claim it should be rewritten to `O` (and the claim's rewriting of 1 before
the then-capital `O` would give `IOA`).  The code's patterns
`\b0(?=[A-Z])` and `\b1(?=[A-Z])` additionally require a word boundary
before the digit; in `10A` the 0 is preceded by the word character 1, so
nothing is rewritten and the 0-before-capital occurrence survives in the
output. -/
theorem clean_extracted_keeps_digit_after_word_char :
    clean_extracted_text "10A".toList = "10A".toList ∧
    hasDigitCapAnywhere '0' (clean_extracted_text "10A".toList) = true := by
  decide

/-- The strip of a list is the remaining middle after removing an
all-whitespace prefix and suffix. -/
theorem pyStrip_eq_rdrop (cs : List Char) :
    pyStrip cs = List.rdropWhile isPySpace (cs.dropWhile isPySpace) := rfl

theorem allWs_append {a b : List Char} (ha : ∀ c ∈ a, isPySpace c = true)
    (hb : ∀ c ∈ b, isPySpace c = true) : ∀ c ∈ a ++ b, isPySpace c = true := by
  intro c hc
  rcases List.mem_append.mp hc with h | h
  · exact ha c h
  · exact hb c h

theorem rdropWhile_append_allP (p : Char → Bool) (x : List Char) :
    ∀ (b : List Char), (∀ c ∈ b, p c = true) →
      List.rdropWhile p (x ++ b) = List.rdropWhile p x := by
  intro b
  induction b using List.reverseRecOn with
  | nil => intro _; rw [List.append_nil]
  | append_singleton b' c ih =>
    intro h
    rw [← List.append_assoc]
    rw [List.rdropWhile_concat_pos]
    · exact ih (fun d hd => h d (List.mem_append.mpr (Or.inl hd)))
    · exact h c (List.mem_append.mpr (Or.inr (List.mem_singleton_self c)))

theorem rdropWhile_cons_of_head_neg (p : Char → Bool) (c : Char) (t : List Char)
    (hc : p c = false) :
    List.rdropWhile p (c :: t) = c :: List.rdropWhile p t := by
  unfold List.rdropWhile
  rw [show (c :: t).reverse = t.reverse ++ [c] by simp]
  rw [List.dropWhile_append]
  by_cases h : (t.reverse.dropWhile p).isEmpty
  · rw [if_pos h]
    rw [List.isEmpty_iff] at h
    rw [h]
    simp [List.dropWhile, hc]
  · rw [if_neg h]
    rw [List.isEmpty_iff] at h
    simp

/-- Existence half of the strip decomposition. -/
theorem pyStrip_decomp (cs : List Char) :
    ∃ w1 w2, cs = w1 ++ pyStrip cs ++ w2 ∧
      (∀ c ∈ w1, isPySpace c = true) ∧ (∀ c ∈ w2, isPySpace c = true) := by
  refine ⟨cs.takeWhile isPySpace,
    List.rtakeWhile isPySpace (cs.dropWhile isPySpace), ?_, ?_, ?_⟩
  · rw [pyStrip_eq_rdrop]
    conv_lhs => rw [← List.takeWhile_append_dropWhile (p := isPySpace) (l := cs)]
    rw [List.append_assoc]
    congr 1
    have h2 := List.takeWhile_append_dropWhile (p := isPySpace)
      (l := (cs.dropWhile isPySpace).reverse)
    have h3 := congrArg List.reverse h2
    rw [List.reverse_append, List.reverse_reverse] at h3
    exact h3.symm
  · exact fun c hc => List.mem_takeWhile_imp hc
  · exact fun c hc => List.mem_rtakeWhile_imp hc

/-- The head of a nonempty strip is not whitespace. -/
theorem pyStrip_head_not_ws (cs : List Char) (c : Char) (t : List Char)
    (h : pyStrip cs = c :: t) : isPySpace c = false := by
  rw [pyStrip_eq_rdrop] at h
  obtain ⟨u, hu⟩ := List.rdropWhile_prefix (p := isPySpace)
    (l := cs.dropWhile isPySpace)
  rw [h] at hu
  have hh : (cs.dropWhile isPySpace).head? = some c := by
    rw [← hu]; rfl
  have h2 := List.head?_dropWhile_not isPySpace cs
  rw [hh] at h2
  exact h2

/-- The last element of a nonempty strip is not whitespace. -/
theorem pyStrip_last_not_ws (cs : List Char) (c : Char) (t : List Char)
    (h : pyStrip cs = t ++ [c]) : isPySpace c = false := by
  rw [pyStrip_eq_rdrop] at h
  have hne : List.rdropWhile isPySpace (cs.dropWhile isPySpace) ≠ [] := by
    rw [h]; simp
  have := List.rdropWhile_last_not (p := isPySpace)
    (l := cs.dropWhile isPySpace) hne
  rw [Bool.not_eq_true] at this
  have hlast : (List.rdropWhile isPySpace (cs.dropWhile isPySpace)).getLast hne = c := by
    simp [h]
  rw [hlast] at this
  exact this

/-- Strip is unaffected by an all-whitespace prefix. -/
theorem pyStrip_append_ws_left (a b : List Char)
    (ha : ∀ c ∈ a, isPySpace c = true) : pyStrip (a ++ b) = pyStrip b := by
  rw [pyStrip_eq_rdrop, pyStrip_eq_rdrop, List.dropWhile_append_of_pos ha]

/-- Strip is unaffected by an all-whitespace suffix. -/
theorem pyStrip_append_ws_right (a b : List Char)
    (hb : ∀ c ∈ b, isPySpace c = true) : pyStrip (a ++ b) = pyStrip a := by
  rw [pyStrip_eq_rdrop, pyStrip_eq_rdrop]
  rw [List.dropWhile_append]
  by_cases h : (a.dropWhile isPySpace).isEmpty
  · rw [if_pos h]
    rw [List.isEmpty_iff] at h
    rw [h, List.dropWhile_eq_nil_iff.mpr hb]
  · rw [if_neg h]
    exact rdropWhile_append_allP isPySpace _ b hb

/-- Uniqueness of the strip decomposition: any middle flanked by whitespace
whose two ends are not whitespace is the strip. -/
theorem pyStrip_unique (w1 m w2 : List Char)
    (h1 : ∀ c ∈ w1, isPySpace c = true) (h2 : ∀ c ∈ w2, isPySpace c = true)
    (hm : m = [] ∨ ((∃ c t, m = c :: t ∧ isPySpace c = false) ∧
      (∃ t c, m = t ++ [c] ∧ isPySpace c = false))) :
    pyStrip (w1 ++ m ++ w2) = m := by
  rw [List.append_assoc, pyStrip_append_ws_left w1 (m ++ w2) h1,
    pyStrip_append_ws_right m w2 h2]
  rcases hm with rfl | ⟨⟨c, t, rfl, hc⟩, ⟨t2, c2, he, hc2⟩⟩
  · rfl
  · rw [pyStrip_eq_rdrop, List.dropWhile_cons_of_neg (by simp [hc])]
    rw [he, List.rdropWhile_concat_neg (p := isPySpace) (l := t2) c2 (by simp [hc2])]

/-- Strip commutes with reversal. -/
theorem pyStrip_reverse (cs : List Char) :
    pyStrip cs.reverse = (pyStrip cs).reverse := by
  obtain ⟨w1, w2, hdec, hw1, hw2⟩ := pyStrip_decomp cs
  have hrev : cs.reverse = w2.reverse ++ (pyStrip cs).reverse ++ w1.reverse := by
    conv_lhs => rw [hdec]
    simp
  rw [hrev]
  apply pyStrip_unique
  · intro c hc; exact hw2 c (List.mem_reverse.mp hc)
  · intro c hc; exact hw1 c (List.mem_reverse.mp hc)
  · cases hstr : pyStrip cs with
    | nil => left; simp [hstr]
    | cons c t =>
      right
      rcases List.eq_nil_or_concat t with rfl | ⟨t2, c2, rfl⟩
      · constructor
        · exact ⟨c, [], by simp [hstr], pyStrip_head_not_ws cs c [] hstr⟩
        · exact ⟨[], c, by simp [hstr], pyStrip_head_not_ws cs c [] hstr⟩
      · constructor
        · refine ⟨c2, t2.reverse ++ [c], ?_,
            pyStrip_last_not_ws cs c2 (c :: t2) (by rw [hstr]; simp [List.concat_eq_append])⟩
          simp
        · refine ⟨(t2 ++ [c2]).reverse, c, ?_,
            pyStrip_head_not_ws cs c (t2.concat c2) hstr⟩
          simp

theorem joinNl_cons_cons (c : Char) (u : List Char) (v : List (List Char)) :
    joinNl ((c :: u) :: v) = c :: joinNl (u :: v) := by
  cases v <;> rfl

theorem joinNl_splitNl (cs : List Char) : joinNl (splitNl cs) = cs := by
  induction cs with
  | nil => rfl
  | cons c rest ih =>
    by_cases h : c == '\n'
    · have hc : c = '\n' := beq_iff_eq.mp h
      subst hc
      show joinNl ((splitNlCore ('\n' :: rest)).1 :: (splitNlCore ('\n' :: rest)).2) = _
      simp only [splitNlCore, beq_self_eq_true, if_true]
      show joinNl ([] :: splitNl rest) = '\n' :: rest
      rw [show joinNl ([] :: splitNl rest) = [] ++ '\n' :: joinNl (splitNl rest) from
        by unfold splitNl; rfl]
      rw [ih]
      rfl
    · show joinNl ((splitNlCore (c :: rest)).1 :: (splitNlCore (c :: rest)).2) = _
      simp only [splitNlCore, h, if_false]
      show joinNl ((c :: (splitNlCore rest).1) :: (splitNlCore rest).2) = c :: rest
      rw [joinNl_cons_cons]
      exact congrArg (c :: ·) ih

theorem joinNl_cons_append (b : List (List Char)) (hb : b ≠ []) :
    ∀ (a2 : List (List Char)) (x : List Char),
      joinNl ((x :: a2) ++ b) = joinNl (x :: a2) ++ '\n' :: joinNl b := by
  intro a2
  induction a2 with
  | nil =>
    intro x
    cases b with
    | nil => exact absurd rfl hb
    | cons y b2 => rfl
  | cons x2 a3 ih =>
    intro x
    have h1 : joinNl (x :: ((x2 :: a3) ++ b)) = x ++ '\n' :: joinNl ((x2 :: a3) ++ b) := rfl
    show joinNl (x :: ((x2 :: a3) ++ b)) = joinNl (x :: x2 :: a3) ++ '\n' :: joinNl b
    rw [h1, ih x2]
    rw [show joinNl (x :: x2 :: a3) = x ++ '\n' :: joinNl (x2 :: a3) from rfl]
    simp

/-- Joining distributes over a split into two nonempty line blocks. -/
theorem joinNl_append (a b : List (List Char)) (ha : a ≠ []) (hb : b ≠ []) :
    joinNl (a ++ b) = joinNl a ++ '\n' :: joinNl b := by
  cases a with
  | nil => exact absurd rfl ha
  | cons x a2 => exact joinNl_cons_append b hb a2 x

/-- A newline-free string splits into a single line. -/
theorem splitNl_no_newline (cs : List Char) (h : '\n' ∉ cs) :
    splitNl cs = [cs] := by
  induction cs with
  | nil => rfl
  | cons c rest ih =>
    have hc : (c == '\n') = false := by
      simp only [beq_eq_false_iff_ne, ne_eq]
      intro hcc
      exact h (hcc ▸ List.mem_cons_self c rest)
    have hr : splitNl rest = [rest] := ih (fun hm => h (List.mem_cons_of_mem c hm))
    unfold splitNl at hr ⊢
    simp only [splitNlCore, hc, Bool.false_eq_true, if_false]
    have h1 : (splitNlCore rest).1 = rest := by
      have := congrArg List.head? hr
      simpa using this
    have h2 : (splitNlCore rest).2 = [] := by
      have := congrArg List.tail hr
      simpa using this
    rw [h1, h2]

/-- Splitting after appending a newline and a block. -/
theorem splitNl_append_newline (b : List Char) :
    ∀ (x : List Char), '\n' ∉ x → splitNl (x ++ '\n' :: b) = x :: splitNl b := by
  intro x
  induction x with
  | nil =>
    intro _
    show splitNl ('\n' :: b) = [] :: splitNl b
    unfold splitNl
    simp only [splitNlCore, beq_self_eq_true, if_true]
  | cons c x2 ih =>
    intro h
    have hc : (c == '\n') = false := by
      simp only [beq_eq_false_iff_ne, ne_eq]
      intro hcc
      exact h (hcc ▸ List.mem_cons_self c x2)
    have hr := ih (fun hm => h (List.mem_cons_of_mem c hm))
    unfold splitNl at hr ⊢
    simp only [List.cons_append, splitNlCore, hc, Bool.false_eq_true, if_false,
      List.append_eq]
    have h1 : (splitNlCore (x2 ++ '\n' :: b)).1 = x2 := by
      have := congrArg List.head? hr
      simpa using this
    have h2 : (splitNlCore (x2 ++ '\n' :: b)).2 = splitNl b := by
      have := congrArg List.tail hr
      simpa [splitNl] using this
    rw [h1, h2]
    rfl

/-- Splitting inverts joining on newline-free lines. -/
theorem splitNl_joinNl (L : List (List Char)) (hL : L ≠ [])
    (h : ∀ l ∈ L, '\n' ∉ l) : splitNl (joinNl L) = L := by
  induction L with
  | nil => exact absurd rfl hL
  | cons x L2 ih =>
    cases L2 with
    | nil =>
      show splitNl (joinNl [x]) = [x]
      exact splitNl_no_newline x (h x (List.mem_cons_self x []))
    | cons y L3 =>
      rw [show joinNl (x :: y :: L3) = x ++ '\n' :: joinNl (y :: L3) from rfl]
      rw [splitNl_append_newline (joinNl (y :: L3)) x (h x (List.mem_cons_self x _))]
      rw [ih (by simp) (fun l hl => h l (List.mem_cons_of_mem x hl))]

/-- A line strips to nothing exactly when it is all whitespace. -/
theorem pyStrip_eq_nil_iff (l : List Char) :
    pyStrip l = [] ↔ ∀ c ∈ l, isPySpace c = true := by
  rw [pyStrip_eq_rdrop, List.rdropWhile_eq_nil_iff]
  constructor
  · intro h
    have hnil : l.dropWhile isPySpace = [] := by
      cases hd : l.dropWhile isPySpace with
      | nil => rfl
      | cons c t =>
        exfalso
        have hx := List.head?_dropWhile_not isPySpace l
        rw [hd] at hx
        have hx2 : isPySpace c = false := hx
        rw [h c (by rw [hd]; exact List.mem_cons_self _ _)] at hx2
        cases hx2
    exact List.dropWhile_eq_nil_iff.mp hnil
  · intro h c hc
    exact h c ((List.dropWhile_sublist (l := l) isPySpace).subset hc)

/-- Joining all-whitespace lines yields an all-whitespace string. -/
theorem joinNl_all_ws (L : List (List Char))
    (h : ∀ l ∈ L, ∀ c ∈ l, isPySpace c = true) :
    ∀ c ∈ joinNl L, isPySpace c = true := by
  induction L with
  | nil => intro c hc; cases hc
  | cons x L2 ih =>
    cases L2 with
    | nil =>
      intro c hc
      exact h x (List.mem_cons_self x []) c hc
    | cons y L3 =>
      intro c hc
      rw [show joinNl (x :: y :: L3) = x ++ '\n' :: joinNl (y :: L3) from rfl] at hc
      rcases List.mem_append.mp hc with h1 | h1
      · exact h x (List.mem_cons_self x _) c h1
      · rcases List.mem_cons.mp h1 with rfl | h2
        · rfl
        · exact ih (fun l hl => h l (List.mem_cons_of_mem x hl)) c h2

/-- A string whose ends are visible characters is its own strip. -/
theorem pyStrip_eq_self (m : List Char) (c1 : Char) (t1 : List Char)
    (c2 : Char) (t2 : List Char) (h1 : m = c1 :: t1) (h2 : m = t2 ++ [c2])
    (hc1 : isPySpace c1 = false) (hc2 : isPySpace c2 = false) :
    pyStrip m = m := by
  have := pyStrip_unique [] m [] (by intro c hc; cases hc) (by intro c hc; cases hc)
    (Or.inr ⟨⟨c1, t1, h1, hc1⟩, ⟨t2, c2, h2, hc2⟩⟩)
  simpa using this

/-- The strip of an extended string keeps the head of the strip of its
prefix part. -/
theorem pyStrip_append_head (a b : List Char) (c : Char) (t : List Char)
    (h : pyStrip a = c :: t) :
    ∃ t2, pyStrip (a ++ b) = c :: t2 := by
  have hcw : isPySpace c = false := pyStrip_head_not_ws a c t h
  obtain ⟨w1, w2, hdec, hw1, hw2⟩ := pyStrip_decomp a
  rw [h] at hdec
  have hb : a ++ b = w1 ++ (c :: (t ++ w2 ++ b)) := by
    rw [hdec]; simp
  rw [hb, pyStrip_append_ws_left w1 _ hw1]
  rw [pyStrip_eq_rdrop, List.dropWhile_cons_of_neg (by simp [hcw])]
  have hne : List.rdropWhile isPySpace (c :: (t ++ w2 ++ b)) ≠ [] := by
    rw [Ne, List.rdropWhile_eq_nil_iff]
    intro hall
    exact absurd (hall c (List.mem_cons_self _ _)) (by simp [hcw])
  obtain ⟨u, hu⟩ := List.rdropWhile_prefix (p := isPySpace) (l := c :: (t ++ w2 ++ b))
  cases hr : List.rdropWhile isPySpace (c :: (t ++ w2 ++ b)) with
  | nil => exact absurd hr hne
  | cons c0 t0 =>
    rw [hr] at hu
    have : c0 = c := by
      have := congrArg List.head? hu
      simpa using this
    exact ⟨t0, by rw [this]⟩

/-- The strip of an extended string keeps the last element of the strip of
its suffix part. -/
theorem pyStrip_append_last (a b : List Char) (c : Char) (t : List Char)
    (h : pyStrip b = t ++ [c]) :
    ∃ t2, pyStrip (a ++ b) = t2 ++ [c] := by
  have hrev : pyStrip b.reverse = c :: t.reverse := by
    rw [pyStrip_reverse, h]
    simp
  obtain ⟨t2, ht2⟩ := pyStrip_append_head b.reverse a.reverse c t.reverse hrev
  refine ⟨t2.reverse, ?_⟩
  have : pyStrip ((a ++ b).reverse) = c :: t2 := by
    rw [List.reverse_append]
    exact ht2
  rw [pyStrip_reverse] at this
  have := congrArg List.reverse this
  simpa using this

/-- Blank lines before and after do not change the strip of the joined
text. -/
theorem pyStrip_joinNl_blank (pre core post : List (List Char))
    (hpre : ∀ l ∈ pre, ∀ c ∈ l, isPySpace c = true)
    (hpost : ∀ l ∈ post, ∀ c ∈ l, isPySpace c = true)
    (hcore : core ≠ []) :
    pyStrip (joinNl (pre ++ core ++ post)) = pyStrip (joinNl core) := by
  have step1 : pyStrip (joinNl (pre ++ core ++ post)) =
      pyStrip (joinNl (core ++ post)) := by
    rw [List.append_assoc]
    cases hp : pre with
    | nil => simp
    | cons x p2 =>
      rw [← hp]
      have hne : core ++ post ≠ [] := by
        intro hcon
        exact hcore (List.append_eq_nil.mp hcon).1
      rw [joinNl_append pre (core ++ post) (by rw [hp]; simp) hne]
      rw [show joinNl pre ++ '\n' :: joinNl (core ++ post) =
        (joinNl pre ++ ['\n']) ++ joinNl (core ++ post) by simp]
      apply pyStrip_append_ws_left
      intro c hc
      rcases List.mem_append.mp hc with h1 | h1
      · exact joinNl_all_ws pre (by rw [hp] at hpre ⊢; exact hpre) c h1
      · rcases List.mem_singleton.mp h1 with rfl
        rfl
  rw [step1]
  cases hq : post with
  | nil => simp
  | cons y q2 =>
    rw [← hq]
    rw [joinNl_append core post hcore (by rw [hq]; simp)]
    apply pyStrip_append_ws_right
    intro c hc
    rcases List.mem_cons.mp hc with rfl | h1
    · rfl
    · exact joinNl_all_ws post (by rw [hq] at hpost ⊢; exact hpost) c h1

/-- The first-brace scan finds the head of the first matching line. -/
theorem findStartIdx_append (pre : List (List Char)) (l0 : List Char)
    (rest : List (List Char))
    (hpre : ∀ l ∈ pre, listStartsWith (pyStrip l) ['{'] = false)
    (h0 : listStartsWith (pyStrip l0) ['{'] = true) :
    findStartIdx (pre ++ l0 :: rest) = some pre.length := by
  induction pre with
  | nil => simp [findStartIdx, h0]
  | cons x p2 ih =>
    have hx : listStartsWith (pyStrip x) ['{'] = false :=
      hpre x (List.mem_cons_self x p2)
    rw [List.cons_append]
    show findStartIdx (x :: (p2 ++ l0 :: rest)) = some (x :: p2).length
    unfold findStartIdx
    rw [hx]
    simp only [Bool.false_eq_true, if_false]
    rw [ih (fun l hl => hpre l (List.mem_cons_of_mem x hl))]
    rfl

/-- With no matching line, the last-brace scan fails. -/
theorem findEndIdx_none (post : List (List Char))
    (hpost : ∀ l ∈ post, listEndsWith (pyStrip l) ['}'] = false) :
    findEndIdx post = none := by
  induction post with
  | nil => rfl
  | cons x p2 ih =>
    unfold findEndIdx
    rw [ih (fun l hl => hpost l (List.mem_cons_of_mem x hl))]
    rw [hpost x (List.mem_cons_self x p2)]
    simp

/-- The last-brace scan finds the last matching line. -/
theorem findEndIdx_append (ini : List (List Char)) (l1 : List Char)
    (post : List (List Char))
    (hpost : ∀ l ∈ post, listEndsWith (pyStrip l) ['}'] = false)
    (h1 : listEndsWith (pyStrip l1) ['}'] = true) :
    findEndIdx (ini ++ l1 :: post) = some ini.length := by
  induction ini with
  | nil =>
    show findEndIdx (l1 :: post) = some 0
    unfold findEndIdx
    rw [findEndIdx_none post hpost, h1]
    simp
  | cons x i2 ih =>
    rw [List.cons_append]
    show findEndIdx (x :: (i2 ++ l1 :: post)) = some (x :: i2).length
    unfold findEndIdx
    rw [ih]
    rfl

theorem rdropWhile_append_rtakeWhile (p : List Char → Bool)
    (l : List (List Char)) :
    List.rdropWhile p l ++ List.rtakeWhile p l = l := by
  have h := List.takeWhile_append_dropWhile (p := p) (l := l.reverse)
  have h2 := congrArg List.reverse h
  rw [List.reverse_append, List.reverse_reverse] at h2
  exact h2

/-- Claim C7.  On input whose strip is a brace-delimited block (which every
string parsing as a JSON object is), `clean_api_response` returns the input
unchanged modulo leading and trailing whitespace: the fence-stripping steps
do not fire, the boundary scan selects exactly the span from the first to
the last visible line, and the final `strip()` yields the stripped input. -/
theorem clean_api_response_idempotent_on_object (s objMid : List Char)
    (h : pyStrip s = '{' :: objMid ++ ['}']) :
    clean_api_response s = pyStrip s := by
  have c1 : listStartsWith (pyStrip s) "```json".toList = false := by
    rw [h]; rfl
  have c2 : listStartsWith (pyStrip s) "```".toList = false := by
    rw [h]; rfl
  have c3 : listEndsWith (pyStrip s) "```".toList = false := by
    unfold listEndsWith
    rw [h]
    rw [show ('{' :: objMid ++ ['}']).reverse = '}' :: (objMid.reverse ++ ['{'])
      from by simp]
    rfl
  have hfence : stripFences s = s := by
    unfold stripFences
    simp only [c1, c2, c3, Bool.false_eq_true, if_false]
  have hjoin : joinNl (splitNl s) = s := joinNl_splitNl s
  have hs_ne : pyStrip s ≠ [] := by rw [h]; simp
  set blankB : List Char → Bool := fun l => (pyStrip l).isEmpty with hblank
  set L : List (List Char) := splitNl s with hL
  set pre : List (List Char) := L.takeWhile blankB with hpreDef
  set suf : List (List Char) := L.dropWhile blankB with hsufDef
  have h4 : pre ++ suf = L := List.takeWhile_append_dropWhile blankB L
  set post : List (List Char) := List.rtakeWhile blankB suf with hpostDef
  set core : List (List Char) := List.rdropWhile blankB suf with hcoreDef
  have h5 : core ++ post = suf := rdropWhile_append_rtakeWhile blankB suf
  have hpre_blank : ∀ l ∈ pre, ∀ c ∈ l, isPySpace c = true := by
    intro l hl
    have := List.mem_takeWhile_imp hl
    rw [hblank] at this
    exact (pyStrip_eq_nil_iff l).mp (List.isEmpty_iff.mp this)
  have hpost_blank : ∀ l ∈ post, ∀ c ∈ l, isPySpace c = true := by
    intro l hl
    have := List.mem_rtakeWhile_imp hl
    rw [hblank] at this
    exact (pyStrip_eq_nil_iff l).mp (List.isEmpty_iff.mp this)
  have hsuf_ne : suf ≠ [] := by
    intro hcon
    apply hs_ne
    rw [← hjoin]
    rw [pyStrip_eq_nil_iff]
    apply joinNl_all_ws
    show ∀ l ∈ L, ∀ c ∈ l, isPySpace c = true
    rw [← h4, hcon, List.append_nil]
    exact hpre_blank
  obtain ⟨l0, suf2, hsuf⟩ : ∃ l0 suf2, suf = l0 :: suf2 := by
    cases hx : suf with
    | nil => exact absurd hx hsuf_ne
    | cons a b => exact ⟨a, b, rfl⟩
  have hl0_nb : blankB l0 = false := by
    have hx := List.head?_dropWhile_not blankB L
    rw [← hsufDef, hsuf] at hx
    exact hx
  have hcore_ne : core ≠ [] := by
    rw [hcoreDef, Ne, List.rdropWhile_eq_nil_iff]
    intro hall
    have := hall l0 (by rw [hsuf]; exact List.mem_cons_self _ _)
    rw [hl0_nb] at this
    cases this
  have hcore_head : ∃ core2, core = l0 :: core2 := by
    obtain ⟨u, hu⟩ := List.rdropWhile_prefix (p := blankB) (l := suf)
    rw [← hcoreDef] at hu
    cases hc : core with
    | nil => exact absurd hc hcore_ne
    | cons k0 k2 =>
      rw [hc, hsuf] at hu
      have : k0 = l0 := by
        have := congrArg List.head? hu
        simpa using this
      exact ⟨k2, by rw [this]⟩
  obtain ⟨ini, l1, hconc⟩ : ∃ ini l1, core = ini ++ [l1] := by
    rcases List.eq_nil_or_concat core with hx | ⟨a, b, hx⟩
    · exact absurd hx hcore_ne
    · exact ⟨a, b, by simpa using hx⟩
  have hl1_nb : blankB l1 = false := by
    cases hbv : blankB l1 with
    | false => rfl
    | true =>
      exfalso
      have hidem : List.rdropWhile blankB core = core := by
        rw [hcoreDef]
        exact List.rdropWhile_idempotent blankB _
      rw [hconc, List.rdropWhile_concat_pos (p := blankB) (l := ini) l1 hbv]
        at hidem
      have hlen := congrArg List.length hidem
      have hple := (List.rdropWhile_prefix (p := blankB) (l := ini)).length_le
      simp only [List.length_append, List.length_singleton] at hlen
      omega
  have hstrip_core : pyStrip (joinNl core) = pyStrip s := by
    conv_rhs => rw [← hjoin]
    rw [← h4, ← h5, ← List.append_assoc]
    exact (pyStrip_joinNl_blank pre core post hpre_blank hpost_blank hcore_ne).symm
  have hl0_strip : ∃ t0, pyStrip l0 = '{' :: t0 := by
    have hl0ne : pyStrip l0 ≠ [] := by
      intro hcon
      have hbt : blankB l0 = true := by simp [hblank, hcon]
      rw [hbt] at hl0_nb
      cases hl0_nb
    obtain ⟨c0, t0, hct⟩ : ∃ c0 t0, pyStrip l0 = c0 :: t0 := by
      cases hx : pyStrip l0 with
      | nil => exact absurd hx hl0ne
      | cons a b => exact ⟨a, b, rfl⟩
    obtain ⟨core2, hc2⟩ := hcore_head
    have hhead : ∃ t2, pyStrip (joinNl core) = c0 :: t2 := by
      cases hcc : core2 with
      | nil =>
        rw [hc2, hcc]
        exact ⟨t0, hct⟩
      | cons z zs =>
        rw [hc2, hcc]
        rw [show joinNl (l0 :: z :: zs) = l0 ++ '\n' :: joinNl (z :: zs) from rfl]
        exact pyStrip_append_head l0 _ c0 t0 hct
    obtain ⟨t2, ht2⟩ := hhead
    rw [hstrip_core, h] at ht2
    have : '{' = c0 := by
      have := congrArg List.head? ht2
      simpa using this
    exact ⟨t0, by rw [this]; exact hct⟩
  have hl1_strip : ∃ t1, pyStrip l1 = t1 ++ ['}'] := by
    have hl1ne : pyStrip l1 ≠ [] := by
      intro hcon
      have hbt : blankB l1 = true := by simp [hblank, hcon]
      rw [hbt] at hl1_nb
      cases hl1_nb
    obtain ⟨t1, c1x, hct⟩ : ∃ t1 c1x, pyStrip l1 = t1 ++ [c1x] := by
      rcases List.eq_nil_or_concat (pyStrip l1) with hx | ⟨a, b, hx⟩
      · exact absurd hx hl1ne
      · exact ⟨a, b, by simpa using hx⟩
    have hlast : ∃ t2, pyStrip (joinNl core) = t2 ++ [c1x] := by
      cases hii : ini with
      | nil =>
        rw [hconc, hii]
        exact ⟨t1, by simpa using hct⟩
      | cons z zs =>
        rw [hconc, hii]
        rw [joinNl_append (z :: zs) [l1] (by simp) (by simp)]
        rw [show joinNl (z :: zs) ++ '\n' :: joinNl [l1] =
          (joinNl (z :: zs) ++ ['\n']) ++ l1 from by simp [joinNl]]
        exact pyStrip_append_last _ l1 c1x t1 hct
    obtain ⟨t2, ht2⟩ := hlast
    rw [hstrip_core, h] at ht2
    have hc1x : c1x = '}' := by
      have h9 := congrArg List.getLast? ht2
      have h10 : (t2 ++ [c1x]).getLast? = some c1x := by simp
      have h11 : ('{' :: objMid ++ ['}']).getLast? = some '}' := by
        rw [show ('{' : Char) :: objMid ++ ['}'] = ('{' :: objMid) ++ ['}'] from
          (List.cons_append _ _ _).symm]
        exact List.getLast?_concat _
      rw [h10, h11] at h9
      exact (Option.some_inj.mp h9).symm
    exact ⟨t1, by rw [← hc1x]; exact hct⟩
  obtain ⟨t0, hP0⟩ := hl0_strip
  obtain ⟨t1, hQ1⟩ := hl1_strip
  have hP : listStartsWith (pyStrip l0) ['{'] = true := by
    rw [hP0]
    simp [listStartsWith]
  have hQ : listEndsWith (pyStrip l1) ['}'] = true := by
    unfold listEndsWith
    rw [hQ1]
    rw [show (t1 ++ ['}']).reverse = '}' :: t1.reverse from by simp]
    simp [listStartsWith]
  have hpre_P : ∀ l ∈ pre, listStartsWith (pyStrip l) ['{'] = false := by
    intro l hl
    have := List.mem_takeWhile_imp hl
    rw [hblank] at this
    rw [List.isEmpty_iff.mp this]
    rfl
  have hpost_Q : ∀ l ∈ post, listEndsWith (pyStrip l) ['}'] = false := by
    intro l hl
    have := List.mem_rtakeWhile_imp hl
    rw [hblank] at this
    rw [listEndsWith, List.isEmpty_iff.mp this]
    rfl
  obtain ⟨core2, hc2⟩ := hcore_head
  have hL1 : L = pre ++ (l0 :: (core2 ++ post)) := by
    rw [← h4, ← h5, hc2]
    simp
  have hL2 : L = (pre ++ ini) ++ (l1 :: post) := by
    rw [← h4, ← h5, hconc]
    simp
  have hfsi : findStartIdx L = some pre.length := by
    rw [hL1]
    exact findStartIdx_append pre l0 _ hpre_P hP
  have hfei : findEndIdx L = some (pre.length + ini.length) := by
    rw [hL2]
    have := findEndIdx_append (pre ++ ini) l1 post hpost_Q hQ
    rw [this]
    simp
  have hslice : sliceJson s = joinNl core := by
    unfold sliceJson
    rw [show splitNl s = L from rfl, hfsi, hfei]
    show joinNl ((L.drop pre.length).take
      (pre.length + ini.length + 1 - pre.length)) = joinNl core
    have harith : pre.length + ini.length + 1 - pre.length = core.length := by
      rw [hconc]
      simp
      omega
    rw [harith]
    rw [show L.drop pre.length = core ++ post from by
      rw [← h4, ← h5, List.drop_left]]
    rw [List.take_left]
  show pyStrip (sliceJson (stripFences s)) = pyStrip s
  rw [hfence, hslice, hstrip_core]

/-- Strip of a list beginning with a visible character keeps that head. -/
theorem pyStrip_cons_not_ws (c : Char) (t : List Char)
    (hc : isPySpace c = false) :
    pyStrip (c :: t) = c :: List.rdropWhile isPySpace t := by
  rw [pyStrip_eq_rdrop, List.dropWhile_cons_of_neg (by simp [hc])]
  exact rdropWhile_cons_of_head_neg isPySpace c t hc

/-- Strip of a list ending in a visible character keeps that last
character. -/
theorem pyStrip_concat_not_ws (c : Char) (t : List Char)
    (hc : isPySpace c = false) :
    ∃ t2, pyStrip (t ++ [c]) = t2 ++ [c] := by
  have h1 : pyStrip ((t ++ [c]).reverse) = c :: List.rdropWhile isPySpace t.reverse := by
    rw [show (t ++ [c]).reverse = c :: t.reverse from by simp]
    exact pyStrip_cons_not_ws c t.reverse hc
  rw [pyStrip_reverse] at h1
  have h2 := congrArg List.reverse h1
  rw [List.reverse_reverse] at h2
  exact ⟨(List.rdropWhile isPySpace t.reverse).reverse, by rw [h2]; simp⟩

theorem getLast_joinNl_concat (ini : List (List Char)) (ll : List Char)
    (hll : ll ≠ []) : (joinNl (ini ++ [ll])).getLast? = ll.getLast? := by
  cases ini with
  | nil => rfl
  | cons z zs =>
    rw [joinNl_append (z :: zs) [ll] (by simp) (by simp)]
    rw [show joinNl [ll] = ll from rfl]
    rw [List.getLast?_append_of_ne_nil (joinNl (z :: zs))
      (by simp : ('\n' :: ll) ≠ [])]
    cases ll with
    | nil => exact absurd rfl hll
    | cons d ds => rw [List.getLast?_cons_cons]

theorem getLast_joinNl_concat_blank (ini : List (List Char)) :
    (joinNl (ini ++ [[]])).getLast? ≠ some '}' := by
  cases ini with
  | nil => intro hcon; exact Option.noConfusion hcon
  | cons z zs =>
    rw [joinNl_append (z :: zs) [[]] (by simp) (by simp)]
    rw [show joinNl ([[]] : List (List Char)) = [] from rfl]
    rw [show joinNl (z :: zs) ++ '\n' :: ([] : List Char) =
      joinNl (z :: zs) ++ ['\n'] from rfl]
    rw [List.getLast?_concat]
    intro hcon
    exact absurd (Option.some_inj.mp hcon) (by decide)

theorem listStartsWith_cons (c p : Char) (t ps : List Char) :
    listStartsWith (c :: t) (p :: ps) = ((c == p) && listStartsWith t ps) := rfl

/-- Claim C8.  A well-formed JSON object serialisation, wrapped in a
markdown code fence and preceded by lines of leading prose (lines that do
not open with a brace, the first of them starting with a visible character
other than a backtick), is recovered exactly by `clean_api_response`: the
closing-fence strip removes the trailing fence, the boundary scan drops the
prose and the opening fence line, and the join of the remaining lines is
the embedded object text. -/
theorem clean_api_response_recovers_fenced_object
    (proseLines objLines : List (List Char)) (c0 : Char) (p0 : List Char)
    (proseRest : List (List Char)) (objMid : List Char)
    (hpl : proseLines = (c0 :: p0) :: proseRest)
    (hc0w : isPySpace c0 = false) (hc0b : c0 ≠ '`')
    (hpn : ∀ l ∈ proseLines, '\n' ∉ l)
    (hp1 : ∀ l ∈ proseLines, listStartsWith (pyStrip l) ['{'] = false)
    (hon : ∀ l ∈ objLines, '\n' ∉ l)
    (hobj : joinNl objLines = '{' :: objMid ++ ['}']) :
    clean_api_response
      (joinNl (proseLines ++ ["```json".toList] ++ objLines ++ ["```".toList])) =
      joinNl objLines := by
  have hobj_ne : objLines ≠ [] := by
    intro hcon
    rw [hcon] at hobj
    cases hobj
  obtain ⟨ol0, olRest, holx⟩ : ∃ a b, objLines = a :: b := by
    cases hx : objLines with
    | nil => exact absurd hx hobj_ne
    | cons a b => exact ⟨a, b, rfl⟩
  set F1 : List Char := "```json".toList with hF1
  set F2 : List Char := "```".toList with hF2
  set A : List (List Char) := proseLines ++ [F1] ++ objLines with hA
  have hA_ne : A ≠ [] := by rw [hA, hpl]; simp
  set input : List Char := joinNl (A ++ [F2]) with hinput
  have hsplit1 : input = joinNl A ++ '\n' :: F2 := by
    rw [hinput]
    exact joinNl_append A [F2] hA_ne (by simp)
  have hhead : ∃ body, input = c0 :: body := by
    rw [hinput, hA, hpl]
    rw [show (((c0 :: p0) :: proseRest) ++ [F1] ++ objLines) ++ [F2] =
      (c0 :: p0) :: (proseRest ++ [F1] ++ objLines ++ [F2]) from by simp]
    rw [joinNl_cons_cons]
    exact ⟨_, rfl⟩
  have hlastform : input = (joinNl A ++ ['\n', '`', '`']) ++ ['`'] := by
    rw [hsplit1, hF2]
    simp
  have hstrip_input : pyStrip input = input := by
    obtain ⟨body, hb⟩ := hhead
    exact pyStrip_eq_self input c0 body '`' (joinNl A ++ ['\n', '`', '`'])
      hb hlastform hc0w (by decide)
  have hcb : (c0 == '`') = false := beq_eq_false_iff_ne.mpr hc0b
  have c1 : listStartsWith (pyStrip input) "```json".toList = false := by
    obtain ⟨body, hb⟩ := hhead
    rw [hstrip_input, hb,
      show ("```json".toList : List Char) = '`' :: "``json".toList from rfl,
      listStartsWith_cons, hcb]
    rfl
  have c2 : listStartsWith (pyStrip input) "```".toList = false := by
    obtain ⟨body, hb⟩ := hhead
    rw [hstrip_input, hb,
      show ("```".toList : List Char) = '`' :: "``".toList from rfl,
      listStartsWith_cons, hcb]
    rfl
  have c3 : listEndsWith (pyStrip input) "```".toList = true := by
    rw [hstrip_input]
    unfold listEndsWith
    rw [show input.reverse = '`' :: '`' :: '`' :: (joinNl A ++ ['\n']).reverse from by
      rw [hsplit1, hF2]; simp]
    simp [listStartsWith]
  have hfence : stripFences input = joinNl A ++ ['\n'] := by
    unfold stripFences
    simp only [c1, c2, c3, Bool.false_eq_true, if_false, if_true]
    rw [hstrip_input]
    rw [show input = (joinNl A ++ ['\n']) ++ ['`', '`', '`'] from by
      rw [hsplit1, hF2]; simp]
    rw [List.length_append]
    simp only [List.length_cons, List.length_nil]
    rw [show (joinNl A ++ ['\n']).length + 3 - 3 = (joinNl A ++ ['\n']).length from by
      omega]
    rw [List.take_left]
  have hlines : splitNl (joinNl A ++ ['\n']) = A ++ [[]] := by
    rw [show joinNl A ++ ['\n'] = joinNl (A ++ [[]]) from by
      rw [joinNl_append A [[]] hA_ne (by simp)]; rfl]
    apply splitNl_joinNl _ (by rw [hA, hpl]; simp)
    intro l hl
    rw [hA] at hl
    rcases List.mem_append.mp hl with hl1 | hl1
    · rcases List.mem_append.mp hl1 with hl2 | hl2
      · rcases List.mem_append.mp hl2 with hl3 | hl3
        · exact hpn l hl3
        · rw [List.mem_singleton.mp hl3, hF1]; decide
      · exact hon l hl2
    · rw [List.mem_singleton.mp hl1]; simp
  have hol0 : ∃ olt, ol0 = '{' :: olt := by
    rw [holx] at hobj
    cases hol : ol0 with
    | nil =>
      rw [hol] at hobj
      cases olRest with
      | nil => cases hobj
      | cons y ys =>
        rw [show joinNl ([] :: y :: ys) = [] ++ '\n' :: joinNl (y :: ys) from rfl]
          at hobj
        cases hobj
    | cons cz tz =>
      rw [hol, joinNl_cons_cons] at hobj
      have hcz : cz = '{' := ((List.cons.injEq _ _ _ _).mp hobj).1
      exact ⟨tz, by rw [hcz]⟩
  obtain ⟨olt, hol0e⟩ := hol0
  have hP : listStartsWith (pyStrip ol0) ['{'] = true := by
    rw [hol0e, pyStrip_cons_not_ws '{' olt (by decide)]
    simp [listStartsWith]
  obtain ⟨olInit, olLast, holc⟩ : ∃ a b, objLines = a ++ [b] := by
    rcases List.eq_nil_or_concat objLines with hx | ⟨a, b, hx⟩
    · exact absurd hx hobj_ne
    · exact ⟨a, b, by simpa using hx⟩
  have hjlast : (joinNl objLines).getLast? = some '}' := by
    rw [hobj]
    rw [show ('{' : Char) :: objMid ++ ['}'] = ('{' :: objMid) ++ ['}'] from
      (List.cons_append _ _ _).symm]
    exact List.getLast?_concat _
  have holLast_ne : olLast ≠ [] := by
    intro hcon
    rw [holc, hcon] at hjlast
    exact getLast_joinNl_concat_blank olInit hjlast
  have hjl2 : olLast.getLast? = some '}' := by
    rw [holc, getLast_joinNl_concat olInit olLast holLast_ne] at hjlast
    exact hjlast
  obtain ⟨t9, c9, h9c⟩ : ∃ a b, olLast = a ++ [b] := by
    rcases List.eq_nil_or_concat olLast with hx | ⟨a, b, hx⟩
    · exact absurd hx holLast_ne
    · exact ⟨a, b, by simpa using hx⟩
  have hc9 : c9 = '}' := by
    rw [h9c, List.getLast?_concat] at hjl2
    exact Option.some_inj.mp hjl2
  have hQ : listEndsWith (pyStrip olLast) ['}'] = true := by
    obtain ⟨t2, ht2⟩ := pyStrip_concat_not_ws '}' t9 (by decide)
    rw [h9c, hc9]
    unfold listEndsWith
    rw [ht2]
    rw [show (t2 ++ ['}']).reverse = '}' :: t2.reverse from by simp]
    simp [listStartsWith]
  have hF1fail : listStartsWith (pyStrip F1) ['{'] = false := by
    rw [hF1]; decide
  have hfails_pre : ∀ l ∈ proseLines ++ [F1],
      listStartsWith (pyStrip l) ['{'] = false := by
    intro l hl
    rcases List.mem_append.mp hl with h1 | h1
    · exact hp1 l h1
    · rw [List.mem_singleton.mp h1]; exact hF1fail
  have hfsi : findStartIdx (A ++ [[]]) = some (proseLines ++ [F1]).length := by
    rw [show A ++ [[]] = (proseLines ++ [F1]) ++ (ol0 :: (olRest ++ [[]])) from by
      rw [hA, holx]; simp]
    exact findStartIdx_append (proseLines ++ [F1]) ol0 (olRest ++ [[]]) hfails_pre hP
  have hpost_Q : ∀ l ∈ ([[]] : List (List Char)),
      listEndsWith (pyStrip l) ['}'] = false := by
    intro l hl
    rw [List.mem_singleton.mp hl]
    decide
  have hfei : findEndIdx (A ++ [[]]) =
      some (proseLines ++ [F1] ++ olInit).length := by
    rw [show A ++ [[]] = (proseLines ++ [F1] ++ olInit) ++ (olLast :: [[]]) from by
      rw [hA, holc]; simp]
    exact findEndIdx_append (proseLines ++ [F1] ++ olInit) olLast [[]] hpost_Q hQ
  have hstrip_obj : pyStrip (joinNl objLines) = joinNl objLines := by
    apply pyStrip_eq_self (joinNl objLines) '{' (objMid ++ ['}']) '}' ('{' :: objMid)
    · exact hobj
    · rw [hobj]
    · decide
    · decide
  have hslice : sliceJson (joinNl A ++ ['\n']) = joinNl objLines := by
    unfold sliceJson
    rw [hlines, hfsi, hfei]
    show joinNl (((A ++ [[]]).drop (proseLines ++ [F1]).length).take
      ((proseLines ++ [F1] ++ olInit).length + 1 - (proseLines ++ [F1]).length)) =
      joinNl objLines
    have harith : (proseLines ++ [F1] ++ olInit).length + 1 -
        (proseLines ++ [F1]).length = objLines.length := by
      rw [holc]
      simp only [List.length_append, List.length_singleton]
      omega
    rw [harith]
    rw [show A ++ [[]] = (proseLines ++ [F1]) ++ (objLines ++ [[]]) from by
      rw [hA]; simp]
    rw [List.drop_left]
    rw [List.take_left]
  show pyStrip (sliceJson (stripFences input)) = joinNl objLines
  rw [hfence, hslice, hstrip_obj]

/-- Witness for claim C7 at `c7Input`. -/
theorem clean_api_response_idempotent_witness :
    pyStrip c7Input = '{' :: ('\n' :: " \"a\": 1".toList ++ ['\n']) ++ ['}'] ∧
    clean_api_response c7Input = pyStrip c7Input :=
  ⟨by decide, clean_api_response_idempotent_on_object c7Input
    ('\n' :: " \"a\": 1".toList ++ ['\n']) (by decide)⟩

/-- Witness for claim C8: one prose line, the fenced three-line object, the
closing fence; the recovered text is exactly the embedded object. -/
theorem clean_api_response_roundtrip_witness :
    clean_api_response
      (joinNl (["Here is the JSON:".toList] ++ ["```json".toList] ++
        [['{'], " \"a\": 1".toList, ['}']] ++ ["```".toList])) =
      joinNl [['{'], " \"a\": 1".toList, ['}']] :=
  clean_api_response_recovers_fenced_object
    ["Here is the JSON:".toList] [['{'], " \"a\": 1".toList, ['}']]
    'H' "ere is the JSON:".toList [] ('\n' :: " \"a\": 1".toList ++ ['\n'])
    (by decide) (by decide) (by decide) (by decide) (by decide) (by decide)
    (by decide)

/-- Claim C10.  With the API key unset, or with input text whose stripped
length is below 50 characters, `call_gemini_api` returns `None` regardless
of what any network attempt would return: no fallback record is produced at
this edge. -/
theorem call_gemini_api_guard_none (apiKey text : List Char)
    (attempts : List AttemptOutcome)
    (h : apiKey = [] ∨ (pyStrip text).length < 50) :
    call_gemini_api apiKey text attempts = none := by
  unfold call_gemini_api
  rcases h with h | h
  · rw [if_pos h]
  · by_cases hk : apiKey = []
    · rw [if_pos hk]
    · rw [if_neg hk, if_pos (by simp [h])]

/-- Witness for claim C10: an unset key, and a short text, each against
attempts that would have produced a valid reply. -/
theorem call_gemini_api_guard_none_witness :
    call_gemini_api [] "this text is long enough to pass the length gate okay".toList
      [.generated "x".toList] = none ∧
    call_gemini_api "K".toList "short text".toList
      [.requestError, .requestError, .requestError] = none :=
  ⟨call_gemini_api_guard_none [] _ _ (Or.inl rfl),
   call_gemini_api_guard_none "K".toList "short text".toList _ (Or.inr (by decide))⟩

theorem apiAttemptLoop_all_errors (text : List Char) :
    ∀ (attempts : List AttemptOutcome), (∀ a ∈ attempts, a = .requestError) →
      apiAttemptLoop text attempts = some (create_fallback_response text) := by
  intro attempts
  induction attempts with
  | nil => intro _; rfl
  | cons o rest ih =>
    intro h
    have ho : o = .requestError := h o (List.mem_cons_self o rest)
    subst ho
    cases rest with
    | nil => rfl
    | cons o2 rest2 =>
      show apiAttemptLoop text (.requestError :: o2 :: rest2) = _
      rw [show apiAttemptLoop text (.requestError :: o2 :: rest2) =
        apiAttemptLoop text (o2 :: rest2) from rfl]
      exact ih (fun a ha => h a (List.mem_cons_of_mem _ ha))

theorem fallback_data_eq (text : List Char) :
    fallback_data text = fallbackRecord (noticeTypeOf text) (amountOf text) := by
  unfold fallback_data fallbackRecord noticeTypeOf amountOf
  cases reSearch letterMatchAt text <;> rfl

theorem fallback_dump_shape (nt ad : List Char) :
    json_dumps (fallbackRecord nt ad) =
    fbA ++ ((((nt.map escapeJsonChar).flatten ++ ['"']) ++ (',' :: '\n' ::
      (fbB ++ (((ad.map escapeJsonChar).flatten ++ ['"']) ++
        (',' :: '\n' :: fbM6))))) ++ fbC) := rfl

theorem escapeJsonChar_plain (c : Char) (h : plainChar c = true) :
    escapeJsonChar c = [c] := by
  simp only [plainChar, Bool.and_eq_true, bne_iff_ne, ne_eq, decide_eq_true_eq] at h
  obtain ⟨⟨⟨h1, h2⟩, h3⟩, h4⟩ := h
  have hq : (c == '"') = false := by simp [h3]
  have hb : (c == '\\') = false := by simp [h4]
  have hn : (c == '\n') = false := by
    simp only [beq_eq_false_iff_ne, ne_eq]
    intro hc; subst hc; simp at h1
  have ht : (c == '\t') = false := by
    simp only [beq_eq_false_iff_ne, ne_eq]
    intro hc; subst hc; simp at h1
  have hr : (c == '\x0d') = false := by
    simp only [beq_eq_false_iff_ne, ne_eq]
    intro hc; subst hc; simp at h1
  have hb8 : (c == '\x08') = false := by
    simp only [beq_eq_false_iff_ne, ne_eq]
    intro hc; subst hc; simp at h1
  have hbc : (c == '\x0c') = false := by
    simp only [beq_eq_false_iff_ne, ne_eq]
    intro hc; subst hc; simp at h1
  simp [escapeJsonChar, hq, hb, hn, ht, hr, hb8, hbc]
  omega

theorem escape_plain (s : List Char) (h : ∀ c ∈ s, plainChar c = true) :
    (s.map escapeJsonChar).flatten = s := by
  induction s with
  | nil => rfl
  | cons c cs ih =>
    rw [List.map_cons, List.flatten_cons,
      escapeJsonChar_plain c (h c (List.mem_cons_self c cs)),
      ih (fun d hd => h d (List.mem_cons_of_mem c hd))]
    rfl

theorem foldl_inString_plain (s : List Char) (h : ∀ c ∈ s, plainChar c = true) :
    ∀ (k : Bool) (acc : List Char) (stk : List PFrame) (root : Option Json),
    List.foldl parseStep ⟨.inString k acc false, stk, root⟩ s =
      ⟨.inString k (acc ++ s) false, stk, root⟩ := by
  induction s with
  | nil => intro k acc stk root; simp
  | cons c cs ih =>
    intro k acc stk root
    have hc := h c (List.mem_cons_self c cs)
    simp only [plainChar, Bool.and_eq_true, bne_iff_ne, ne_eq,
      decide_eq_true_eq] at hc
    obtain ⟨⟨⟨h1, h2⟩, h3⟩, h4⟩ := hc
    have hstep : parseStep ⟨.inString k acc false, stk, root⟩ c =
        ⟨.inString k (acc ++ [c]) false, stk, root⟩ := by
      show (if (c == '"') = true then _ else _) = _
      rw [if_neg (by simp [h3]), if_neg (by simp [h4]), if_neg (by omega)]
    rw [List.foldl_cons, hstep,
      ih (fun d hd => h d (List.mem_cons_of_mem c hd)) k (acc ++ [c]) stk root]
    simp

theorem fbBseg1 (nt : List Char) :
    List.foldl parseStep
      ⟨.expectKey, [.objF [("noticeType".toList, Json.str nt)] "noticeType".toList], none⟩
      "  \"noticeFor\": \"\",\n".toList =
    ⟨.expectKey, [.objF [("noticeType".toList, Json.str nt), ("noticeFor".toList, Json.str [])] "noticeFor".toList], none⟩ := by
  rw [show ("  \"noticeFor\": \"\",\n".toList : List Char) =
    [' ', ' ', '\"', 'n', 'o', 't', 'i', 'c', 'e', 'F', 'o', 'r', '\"', ':', ' ', '\"', '\"', ',', '\n'] from rfl]
  simp only [List.foldl_cons, List.foldl_nil]
  simp [parseStep, stepValueStart, stepAfterValue, pushValue, isJsonWs]

theorem fbBseg2 (nt : List Char) :
    List.foldl parseStep
      ⟨.expectKey, [.objF [("noticeType".toList, Json.str nt), ("noticeFor".toList, Json.str [])] "noticeFor".toList], none⟩
      "  \"address\": \"\",\n".toList =
    ⟨.expectKey, [.objF [("noticeType".toList, Json.str nt), ("noticeFor".toList, Json.str []), ("address".toList, Json.str [])] "address".toList], none⟩ := by
  rw [show ("  \"address\": \"\",\n".toList : List Char) =
    [' ', ' ', '\"', 'a', 'd', 'd', 'r', 'e', 's', 's', '\"', ':', ' ', '\"', '\"', ',', '\n'] from rfl]
  simp only [List.foldl_cons, List.foldl_nil]
  simp [parseStep, stepValueStart, stepAfterValue, pushValue, isJsonWs]

theorem fbBseg3 (nt : List Char) :
    List.foldl parseStep
      ⟨.expectKey, [.objF [("noticeType".toList, Json.str nt), ("noticeFor".toList, Json.str []), ("address".toList, Json.str [])] "address".toList], none⟩
      "  \"ssn\": \"\",\n".toList =
    ⟨.expectKey, [.objF [("noticeType".toList, Json.str nt), ("noticeFor".toList, Json.str []), ("address".toList, Json.str []), ("ssn".toList, Json.str [])] "ssn".toList], none⟩ := by
  rw [show ("  \"ssn\": \"\",\n".toList : List Char) =
    [' ', ' ', '\"', 's', 's', 'n', '\"', ':', ' ', '\"', '\"', ',', '\n'] from rfl]
  simp only [List.foldl_cons, List.foldl_nil]
  simp [parseStep, stepValueStart, stepAfterValue, pushValue, isJsonWs]

theorem fbBseg4 (nt : List Char) :
    List.foldl parseStep
      ⟨.expectKey, [.objF [("noticeType".toList, Json.str nt), ("noticeFor".toList, Json.str []), ("address".toList, Json.str []), ("ssn".toList, Json.str [])] "ssn".toList], none⟩
      "  \"amountDue\": \"".toList =
    ⟨.inString false [] false, [.objF [("noticeType".toList, Json.str nt), ("noticeFor".toList, Json.str []), ("address".toList, Json.str []), ("ssn".toList, Json.str [])] "amountDue".toList], none⟩ := by
  rw [show ("  \"amountDue\": \"".toList : List Char) =
    [' ', ' ', '\"', 'a', 'm', 'o', 'u', 'n', 't', 'D', 'u', 'e', '\"', ':', ' ', '\"'] from rfl]
  simp only [List.foldl_cons, List.foldl_nil]
  simp [parseStep, stepValueStart, stepAfterValue, pushValue, isJsonWs]

theorem fbMseg1 (nt ad : List Char) :
    List.foldl parseStep
      ⟨.expectKey, [.objF [("noticeType".toList, Json.str nt), ("noticeFor".toList, Json.str []), ("address".toList, Json.str []), ("ssn".toList, Json.str []), ("amountDue".toList, Json.str ad)] "amountDue".toList], none⟩
      "  \"payBy\": \"\",\n".toList =
    ⟨.expectKey, [.objF [("noticeType".toList, Json.str nt), ("noticeFor".toList, Json.str []), ("address".toList, Json.str []), ("ssn".toList, Json.str []), ("amountDue".toList, Json.str ad), ("payBy".toList, Json.str [])] "payBy".toList], none⟩ := by
  rw [show ("  \"payBy\": \"\",\n".toList : List Char) =
    [' ', ' ', '\"', 'p', 'a', 'y', 'B', 'y', '\"', ':', ' ', '\"', '\"', ',', '\n'] from rfl]
  simp only [List.foldl_cons, List.foldl_nil]
  simp [parseStep, stepValueStart, stepAfterValue, pushValue, isJsonWs]

theorem fbMseg2 (nt ad : List Char) :
    List.foldl parseStep
      ⟨.expectKey, [.objF [("noticeType".toList, Json.str nt), ("noticeFor".toList, Json.str []), ("address".toList, Json.str []), ("ssn".toList, Json.str []), ("amountDue".toList, Json.str ad), ("payBy".toList, Json.str [])] "payBy".toList], none⟩
      "  \"breakdown\": [],\n".toList =
    ⟨.expectKey, [.objF [("noticeType".toList, Json.str nt), ("noticeFor".toList, Json.str []), ("address".toList, Json.str []), ("ssn".toList, Json.str []), ("amountDue".toList, Json.str ad), ("payBy".toList, Json.str []), ("breakdown".toList, Json.arr [])] "breakdown".toList], none⟩ := by
  rw [show ("  \"breakdown\": [],\n".toList : List Char) =
    [' ', ' ', '\"', 'b', 'r', 'e', 'a', 'k', 'd', 'o', 'w', 'n', '\"', ':', ' ', '[', ']', ',', '\n'] from rfl]
  simp only [List.foldl_cons, List.foldl_nil]
  simp [parseStep, stepValueStart, stepAfterValue, pushValue, isJsonWs]

theorem fbMseg3 (nt ad : List Char) :
    List.foldl parseStep
      ⟨.expectKey, [.objF [("noticeType".toList, Json.str nt), ("noticeFor".toList, Json.str []), ("address".toList, Json.str []), ("ssn".toList, Json.str []), ("amountDue".toList, Json.str ad), ("payBy".toList, Json.str []), ("breakdown".toList, Json.arr [])] "breakdown".toList], none⟩
      "  \"noticeMeaning\": \"This appears to be a tax notice requiring your attention.\",\n".toList =
    ⟨.expectKey, [.objF [("noticeType".toList, Json.str nt), ("noticeFor".toList, Json.str []), ("address".toList, Json.str []), ("ssn".toList, Json.str []), ("amountDue".toList, Json.str ad), ("payBy".toList, Json.str []), ("breakdown".toList, Json.arr []), ("noticeMeaning".toList, Json.str "This appears to be a tax notice requiring your attention.".toList)] "noticeMeaning".toList], none⟩ := by
  rw [show ("  \"noticeMeaning\": \"This appears to be a tax notice requiring your attention.\",\n".toList : List Char) =
    [' ', ' ', '\"', 'n', 'o', 't', 'i', 'c', 'e', 'M', 'e', 'a', 'n', 'i', 'n', 'g', '\"', ':', ' ', '\"', 'T', 'h', 'i', 's', ' ', 'a', 'p', 'p', 'e', 'a', 'r', 's', ' ', 't', 'o', ' ', 'b', 'e', ' ', 'a', ' ', 't', 'a', 'x', ' ', 'n', 'o', 't', 'i', 'c', 'e', ' ', 'r', 'e', 'q', 'u', 'i', 'r', 'i', 'n', 'g', ' ', 'y', 'o', 'u', 'r', ' ', 'a', 't', 't', 'e', 'n', 't', 'i', 'o', 'n', '.', '\"', ',', '\n'] from rfl]
  simp only [List.foldl_cons, List.foldl_nil]
  simp [parseStep, stepValueStart, stepAfterValue, pushValue, isJsonWs]

theorem fbMseg4 (nt ad : List Char) :
    List.foldl parseStep
      ⟨.expectKey, [.objF [("noticeType".toList, Json.str nt), ("noticeFor".toList, Json.str []), ("address".toList, Json.str []), ("ssn".toList, Json.str []), ("amountDue".toList, Json.str ad), ("payBy".toList, Json.str []), ("breakdown".toList, Json.arr []), ("noticeMeaning".toList, Json.str "This appears to be a tax notice requiring your attention.".toList)] "noticeMeaning".toList], none⟩
      "  \"whyText\": \"Unable to determine specific reason. Please review the document carefully.\",\n".toList =
    ⟨.expectKey, [.objF [("noticeType".toList, Json.str nt), ("noticeFor".toList, Json.str []), ("address".toList, Json.str []), ("ssn".toList, Json.str []), ("amountDue".toList, Json.str ad), ("payBy".toList, Json.str []), ("breakdown".toList, Json.arr []), ("noticeMeaning".toList, Json.str "This appears to be a tax notice requiring your attention.".toList), ("whyText".toList, Json.str "Unable to determine specific reason. Please review the document carefully.".toList)] "whyText".toList], none⟩ := by
  rw [show ("  \"whyText\": \"Unable to determine specific reason. Please review the document carefully.\",\n".toList : List Char) =
    [' ', ' ', '\"', 'w', 'h', 'y', 'T', 'e', 'x', 't', '\"', ':', ' ', '\"', 'U', 'n', 'a', 'b', 'l', 'e', ' ', 't', 'o', ' ', 'd', 'e', 't', 'e', 'r', 'm', 'i', 'n', 'e', ' ', 's', 'p', 'e', 'c', 'i', 'f', 'i', 'c', ' ', 'r', 'e', 'a', 's', 'o', 'n', '.', ' ', 'P', 'l', 'e', 'a', 's', 'e', ' ', 'r', 'e', 'v', 'i', 'e', 'w', ' ', 't', 'h', 'e', ' ', 'd', 'o', 'c', 'u', 'm', 'e', 'n', 't', ' ', 'c', 'a', 'r', 'e', 'f', 'u', 'l', 'l', 'y', '.', '\"', ',', '\n'] from rfl]
  simp only [List.foldl_cons, List.foldl_nil]
  simp [parseStep, stepValueStart, stepAfterValue, pushValue, isJsonWs]

theorem fbMseg5 (nt ad : List Char) :
    List.foldl parseStep
      ⟨.expectKey, [.objF [("noticeType".toList, Json.str nt), ("noticeFor".toList, Json.str []), ("address".toList, Json.str []), ("ssn".toList, Json.str []), ("amountDue".toList, Json.str ad), ("payBy".toList, Json.str []), ("breakdown".toList, Json.arr []), ("noticeMeaning".toList, Json.str "This appears to be a tax notice requiring your attention.".toList), ("whyText".toList, Json.str "Unable to determine specific reason. Please review the document carefully.".toList)] "whyText".toList], none⟩
      "  \"fixSteps\": \x7b\n".toList =
    ⟨.expectKeyOrClose, [.objF [] [], .objF [("noticeType".toList, Json.str nt), ("noticeFor".toList, Json.str []), ("address".toList, Json.str []), ("ssn".toList, Json.str []), ("amountDue".toList, Json.str ad), ("payBy".toList, Json.str []), ("breakdown".toList, Json.arr []), ("noticeMeaning".toList, Json.str "This appears to be a tax notice requiring your attention.".toList), ("whyText".toList, Json.str "Unable to determine specific reason. Please review the document carefully.".toList)] "fixSteps".toList], none⟩ := by
  rw [show ("  \"fixSteps\": \x7b\n".toList : List Char) =
    [' ', ' ', '\"', 'f', 'i', 'x', 'S', 't', 'e', 'p', 's', '\"', ':', ' ', '{', '\n'] from rfl]
  simp only [List.foldl_cons, List.foldl_nil]
  simp [parseStep, stepValueStart, stepAfterValue, pushValue, isJsonWs]

theorem fbMseg6 (nt ad : List Char) :
    List.foldl parseStep
      ⟨.expectKeyOrClose, [.objF [] [], .objF [("noticeType".toList, Json.str nt), ("noticeFor".toList, Json.str []), ("address".toList, Json.str []), ("ssn".toList, Json.str []), ("amountDue".toList, Json.str ad), ("payBy".toList, Json.str []), ("breakdown".toList, Json.arr []), ("noticeMeaning".toList, Json.str "This appears to be a tax notice requiring your attention.".toList), ("whyText".toList, Json.str "Unable to determine specific reason. Please review the document carefully.".toList)] "fixSteps".toList], none⟩
      "    \"agree\": \"Contact the IRS at the number provided to arrange payment.\",\n".toList =
    ⟨.expectKey, [.objF [("agree".toList, Json.str "Contact the IRS at the number provided to arrange payment.".toList)] "agree".toList, .objF [("noticeType".toList, Json.str nt), ("noticeFor".toList, Json.str []), ("address".toList, Json.str []), ("ssn".toList, Json.str []), ("amountDue".toList, Json.str ad), ("payBy".toList, Json.str []), ("breakdown".toList, Json.arr []), ("noticeMeaning".toList, Json.str "This appears to be a tax notice requiring your attention.".toList), ("whyText".toList, Json.str "Unable to determine specific reason. Please review the document carefully.".toList)] "fixSteps".toList], none⟩ := by
  rw [show ("    \"agree\": \"Contact the IRS at the number provided to arrange payment.\",\n".toList : List Char) =
    [' ', ' ', ' ', ' ', '\"', 'a', 'g', 'r', 'e', 'e', '\"', ':', ' ', '\"', 'C', 'o', 'n', 't', 'a', 'c', 't', ' ', 't', 'h', 'e', ' ', 'I', 'R', 'S', ' ', 'a', 't', ' ', 't', 'h', 'e', ' ', 'n', 'u', 'm', 'b', 'e', 'r', ' ', 'p', 'r', 'o', 'v', 'i', 'd', 'e', 'd', ' ', 't', 'o', ' ', 'a', 'r', 'r', 'a', 'n', 'g', 'e', ' ', 'p', 'a', 'y', 'm', 'e', 'n', 't', '.', '\"', ',', '\n'] from rfl]
  simp only [List.foldl_cons, List.foldl_nil]
  simp [parseStep, stepValueStart, stepAfterValue, pushValue, isJsonWs]

theorem fbMseg7 (nt ad : List Char) :
    List.foldl parseStep
      ⟨.expectKey, [.objF [("agree".toList, Json.str "Contact the IRS at the number provided to arrange payment.".toList)] "agree".toList, .objF [("noticeType".toList, Json.str nt), ("noticeFor".toList, Json.str []), ("address".toList, Json.str []), ("ssn".toList, Json.str []), ("amountDue".toList, Json.str ad), ("payBy".toList, Json.str []), ("breakdown".toList, Json.arr []), ("noticeMeaning".toList, Json.str "This appears to be a tax notice requiring your attention.".toList), ("whyText".toList, Json.str "Unable to determine specific reason. Please review the document carefully.".toList)] "fixSteps".toList], none⟩
      "    \"disagree\": \"Contact the IRS to dispute the notice or request additional information.\"\n".toList =
    ⟨.afterValue, [.objF [("agree".toList, Json.str "Contact the IRS at the number provided to arrange payment.".toList), ("disagree".toList, Json.str "Contact the IRS to dispute the notice or request additional information.".toList)] "disagree".toList, .objF [("noticeType".toList, Json.str nt), ("noticeFor".toList, Json.str []), ("address".toList, Json.str []), ("ssn".toList, Json.str []), ("amountDue".toList, Json.str ad), ("payBy".toList, Json.str []), ("breakdown".toList, Json.arr []), ("noticeMeaning".toList, Json.str "This appears to be a tax notice requiring your attention.".toList), ("whyText".toList, Json.str "Unable to determine specific reason. Please review the document carefully.".toList)] "fixSteps".toList], none⟩ := by
  rw [show ("    \"disagree\": \"Contact the IRS to dispute the notice or request additional information.\"\n".toList : List Char) =
    [' ', ' ', ' ', ' ', '\"', 'd', 'i', 's', 'a', 'g', 'r', 'e', 'e', '\"', ':', ' ', '\"', 'C', 'o', 'n', 't', 'a', 'c', 't', ' ', 't', 'h', 'e', ' ', 'I', 'R', 'S', ' ', 't', 'o', ' ', 'd', 'i', 's', 'p', 'u', 't', 'e', ' ', 't', 'h', 'e', ' ', 'n', 'o', 't', 'i', 'c', 'e', ' ', 'o', 'r', ' ', 'r', 'e', 'q', 'u', 'e', 's', 't', ' ', 'a', 'd', 'd', 'i', 't', 'i', 'o', 'n', 'a', 'l', ' ', 'i', 'n', 'f', 'o', 'r', 'm', 'a', 't', 'i', 'o', 'n', '.', '\"', '\n'] from rfl]
  simp only [List.foldl_cons, List.foldl_nil]
  simp [parseStep, stepValueStart, stepAfterValue, pushValue, isJsonWs]

theorem fbMseg8 (nt ad : List Char) :
    List.foldl parseStep
      ⟨.afterValue, [.objF [("agree".toList, Json.str "Contact the IRS at the number provided to arrange payment.".toList), ("disagree".toList, Json.str "Contact the IRS to dispute the notice or request additional information.".toList)] "disagree".toList, .objF [("noticeType".toList, Json.str nt), ("noticeFor".toList, Json.str []), ("address".toList, Json.str []), ("ssn".toList, Json.str []), ("amountDue".toList, Json.str ad), ("payBy".toList, Json.str []), ("breakdown".toList, Json.arr []), ("noticeMeaning".toList, Json.str "This appears to be a tax notice requiring your attention.".toList), ("whyText".toList, Json.str "Unable to determine specific reason. Please review the document carefully.".toList)] "fixSteps".toList], none⟩
      "  \x7d,\n".toList =
    ⟨.expectKey, [.objF [("noticeType".toList, Json.str nt), ("noticeFor".toList, Json.str []), ("address".toList, Json.str []), ("ssn".toList, Json.str []), ("amountDue".toList, Json.str ad), ("payBy".toList, Json.str []), ("breakdown".toList, Json.arr []), ("noticeMeaning".toList, Json.str "This appears to be a tax notice requiring your attention.".toList), ("whyText".toList, Json.str "Unable to determine specific reason. Please review the document carefully.".toList), ("fixSteps".toList, Json.obj [("agree".toList, Json.str "Contact the IRS at the number provided to arrange payment.".toList), ("disagree".toList, Json.str "Contact the IRS to dispute the notice or request additional information.".toList)])] "fixSteps".toList], none⟩ := by
  rw [show ("  \x7d,\n".toList : List Char) =
    [' ', ' ', '}', ',', '\n'] from rfl]
  simp only [List.foldl_cons, List.foldl_nil]
  simp [parseStep, stepValueStart, stepAfterValue, pushValue, isJsonWs]

theorem fbMseg9 (nt ad : List Char) :
    List.foldl parseStep
      ⟨.expectKey, [.objF [("noticeType".toList, Json.str nt), ("noticeFor".toList, Json.str []), ("address".toList, Json.str []), ("ssn".toList, Json.str []), ("amountDue".toList, Json.str ad), ("payBy".toList, Json.str []), ("breakdown".toList, Json.arr []), ("noticeMeaning".toList, Json.str "This appears to be a tax notice requiring your attention.".toList), ("whyText".toList, Json.str "Unable to determine specific reason. Please review the document carefully.".toList), ("fixSteps".toList, Json.obj [("agree".toList, Json.str "Contact the IRS at the number provided to arrange payment.".toList), ("disagree".toList, Json.str "Contact the IRS to dispute the notice or request additional information.".toList)])] "fixSteps".toList], none⟩
      "  \"paymentOptions\": \x7b\n".toList =
    ⟨.expectKeyOrClose, [.objF [] [], .objF [("noticeType".toList, Json.str nt), ("noticeFor".toList, Json.str []), ("address".toList, Json.str []), ("ssn".toList, Json.str []), ("amountDue".toList, Json.str ad), ("payBy".toList, Json.str []), ("breakdown".toList, Json.arr []), ("noticeMeaning".toList, Json.str "This appears to be a tax notice requiring your attention.".toList), ("whyText".toList, Json.str "Unable to determine specific reason. Please review the document carefully.".toList), ("fixSteps".toList, Json.obj [("agree".toList, Json.str "Contact the IRS at the number provided to arrange payment.".toList), ("disagree".toList, Json.str "Contact the IRS to dispute the notice or request additional information.".toList)])] "paymentOptions".toList], none⟩ := by
  rw [show ("  \"paymentOptions\": \x7b\n".toList : List Char) =
    [' ', ' ', '\"', 'p', 'a', 'y', 'm', 'e', 'n', 't', 'O', 'p', 't', 'i', 'o', 'n', 's', '\"', ':', ' ', '{', '\n'] from rfl]
  simp only [List.foldl_cons, List.foldl_nil]
  simp [parseStep, stepValueStart, stepAfterValue, pushValue, isJsonWs]

theorem fbMseg10 (nt ad : List Char) :
    List.foldl parseStep
      ⟨.expectKeyOrClose, [.objF [] [], .objF [("noticeType".toList, Json.str nt), ("noticeFor".toList, Json.str []), ("address".toList, Json.str []), ("ssn".toList, Json.str []), ("amountDue".toList, Json.str ad), ("payBy".toList, Json.str []), ("breakdown".toList, Json.arr []), ("noticeMeaning".toList, Json.str "This appears to be a tax notice requiring your attention.".toList), ("whyText".toList, Json.str "Unable to determine specific reason. Please review the document carefully.".toList), ("fixSteps".toList, Json.obj [("agree".toList, Json.str "Contact the IRS at the number provided to arrange payment.".toList), ("disagree".toList, Json.str "Contact the IRS to dispute the notice or request additional information.".toList)])] "paymentOptions".toList], none⟩
      "    \"online\": \"www.irs.gov/payments\",\n".toList =
    ⟨.expectKey, [.objF [("online".toList, Json.str "www.irs.gov/payments".toList)] "online".toList, .objF [("noticeType".toList, Json.str nt), ("noticeFor".toList, Json.str []), ("address".toList, Json.str []), ("ssn".toList, Json.str []), ("amountDue".toList, Json.str ad), ("payBy".toList, Json.str []), ("breakdown".toList, Json.arr []), ("noticeMeaning".toList, Json.str "This appears to be a tax notice requiring your attention.".toList), ("whyText".toList, Json.str "Unable to determine specific reason. Please review the document carefully.".toList), ("fixSteps".toList, Json.obj [("agree".toList, Json.str "Contact the IRS at the number provided to arrange payment.".toList), ("disagree".toList, Json.str "Contact the IRS to dispute the notice or request additional information.".toList)])] "paymentOptions".toList], none⟩ := by
  rw [show ("    \"online\": \"www.irs.gov/payments\",\n".toList : List Char) =
    [' ', ' ', ' ', ' ', '\"', 'o', 'n', 'l', 'i', 'n', 'e', '\"', ':', ' ', '\"', 'w', 'w', 'w', '.', 'i', 'r', 's', '.', 'g', 'o', 'v', '/', 'p', 'a', 'y', 'm', 'e', 'n', 't', 's', '\"', ',', '\n'] from rfl]
  simp only [List.foldl_cons, List.foldl_nil]
  simp [parseStep, stepValueStart, stepAfterValue, pushValue, isJsonWs]

theorem fbMseg11 (nt ad : List Char) :
    List.foldl parseStep
      ⟨.expectKey, [.objF [("online".toList, Json.str "www.irs.gov/payments".toList)] "online".toList, .objF [("noticeType".toList, Json.str nt), ("noticeFor".toList, Json.str []), ("address".toList, Json.str []), ("ssn".toList, Json.str []), ("amountDue".toList, Json.str ad), ("payBy".toList, Json.str []), ("breakdown".toList, Json.arr []), ("noticeMeaning".toList, Json.str "This appears to be a tax notice requiring your attention.".toList), ("whyText".toList, Json.str "Unable to determine specific reason. Please review the document carefully.".toList), ("fixSteps".toList, Json.obj [("agree".toList, Json.str "Contact the IRS at the number provided to arrange payment.".toList), ("disagree".toList, Json.str "Contact the IRS to dispute the notice or request additional information.".toList)])] "paymentOptions".toList], none⟩
      "    \"mail\": \"Check the notice for mailing instructions\",\n".toList =
    ⟨.expectKey, [.objF [("online".toList, Json.str "www.irs.gov/payments".toList), ("mail".toList, Json.str "Check the notice for mailing instructions".toList)] "mail".toList, .objF [("noticeType".toList, Json.str nt), ("noticeFor".toList, Json.str []), ("address".toList, Json.str []), ("ssn".toList, Json.str []), ("amountDue".toList, Json.str ad), ("payBy".toList, Json.str []), ("breakdown".toList, Json.arr []), ("noticeMeaning".toList, Json.str "This appears to be a tax notice requiring your attention.".toList), ("whyText".toList, Json.str "Unable to determine specific reason. Please review the document carefully.".toList), ("fixSteps".toList, Json.obj [("agree".toList, Json.str "Contact the IRS at the number provided to arrange payment.".toList), ("disagree".toList, Json.str "Contact the IRS to dispute the notice or request additional information.".toList)])] "paymentOptions".toList], none⟩ := by
  rw [show ("    \"mail\": \"Check the notice for mailing instructions\",\n".toList : List Char) =
    [' ', ' ', ' ', ' ', '\"', 'm', 'a', 'i', 'l', '\"', ':', ' ', '\"', 'C', 'h', 'e', 'c', 'k', ' ', 't', 'h', 'e', ' ', 'n', 'o', 't', 'i', 'c', 'e', ' ', 'f', 'o', 'r', ' ', 'm', 'a', 'i', 'l', 'i', 'n', 'g', ' ', 'i', 'n', 's', 't', 'r', 'u', 'c', 't', 'i', 'o', 'n', 's', '\"', ',', '\n'] from rfl]
  simp only [List.foldl_cons, List.foldl_nil]
  simp [parseStep, stepValueStart, stepAfterValue, pushValue, isJsonWs]

theorem fbMseg12 (nt ad : List Char) :
    List.foldl parseStep
      ⟨.expectKey, [.objF [("online".toList, Json.str "www.irs.gov/payments".toList), ("mail".toList, Json.str "Check the notice for mailing instructions".toList)] "mail".toList, .objF [("noticeType".toList, Json.str nt), ("noticeFor".toList, Json.str []), ("address".toList, Json.str []), ("ssn".toList, Json.str []), ("amountDue".toList, Json.str ad), ("payBy".toList, Json.str []), ("breakdown".toList, Json.arr []), ("noticeMeaning".toList, Json.str "This appears to be a tax notice requiring your attention.".toList), ("whyText".toList, Json.str "Unable to determine specific reason. Please review the document carefully.".toList), ("fixSteps".toList, Json.obj [("agree".toList, Json.str "Contact the IRS at the number provided to arrange payment.".toList), ("disagree".toList, Json.str "Contact the IRS to dispute the notice or request additional information.".toList)])] "paymentOptions".toList], none⟩
      "    \"plan\": \"www.irs.gov/paymentplan\"\n".toList =
    ⟨.afterValue, [.objF [("online".toList, Json.str "www.irs.gov/payments".toList), ("mail".toList, Json.str "Check the notice for mailing instructions".toList), ("plan".toList, Json.str "www.irs.gov/paymentplan".toList)] "plan".toList, .objF [("noticeType".toList, Json.str nt), ("noticeFor".toList, Json.str []), ("address".toList, Json.str []), ("ssn".toList, Json.str []), ("amountDue".toList, Json.str ad), ("payBy".toList, Json.str []), ("breakdown".toList, Json.arr []), ("noticeMeaning".toList, Json.str "This appears to be a tax notice requiring your attention.".toList), ("whyText".toList, Json.str "Unable to determine specific reason. Please review the document carefully.".toList), ("fixSteps".toList, Json.obj [("agree".toList, Json.str "Contact the IRS at the number provided to arrange payment.".toList), ("disagree".toList, Json.str "Contact the IRS to dispute the notice or request additional information.".toList)])] "paymentOptions".toList], none⟩ := by
  rw [show ("    \"plan\": \"www.irs.gov/paymentplan\"\n".toList : List Char) =
    [' ', ' ', ' ', ' ', '\"', 'p', 'l', 'a', 'n', '\"', ':', ' ', '\"', 'w', 'w', 'w', '.', 'i', 'r', 's', '.', 'g', 'o', 'v', '/', 'p', 'a', 'y', 'm', 'e', 'n', 't', 'p', 'l', 'a', 'n', '\"', '\n'] from rfl]
  simp only [List.foldl_cons, List.foldl_nil]
  simp [parseStep, stepValueStart, stepAfterValue, pushValue, isJsonWs]

theorem fbMseg13 (nt ad : List Char) :
    List.foldl parseStep
      ⟨.afterValue, [.objF [("online".toList, Json.str "www.irs.gov/payments".toList), ("mail".toList, Json.str "Check the notice for mailing instructions".toList), ("plan".toList, Json.str "www.irs.gov/paymentplan".toList)] "plan".toList, .objF [("noticeType".toList, Json.str nt), ("noticeFor".toList, Json.str []), ("address".toList, Json.str []), ("ssn".toList, Json.str []), ("amountDue".toList, Json.str ad), ("payBy".toList, Json.str []), ("breakdown".toList, Json.arr []), ("noticeMeaning".toList, Json.str "This appears to be a tax notice requiring your attention.".toList), ("whyText".toList, Json.str "Unable to determine specific reason. Please review the document carefully.".toList), ("fixSteps".toList, Json.obj [("agree".toList, Json.str "Contact the IRS at the number provided to arrange payment.".toList), ("disagree".toList, Json.str "Contact the IRS to dispute the notice or request additional information.".toList)])] "paymentOptions".toList], none⟩
      "  \x7d,\n".toList =
    ⟨.expectKey, [.objF [("noticeType".toList, Json.str nt), ("noticeFor".toList, Json.str []), ("address".toList, Json.str []), ("ssn".toList, Json.str []), ("amountDue".toList, Json.str ad), ("payBy".toList, Json.str []), ("breakdown".toList, Json.arr []), ("noticeMeaning".toList, Json.str "This appears to be a tax notice requiring your attention.".toList), ("whyText".toList, Json.str "Unable to determine specific reason. Please review the document carefully.".toList), ("fixSteps".toList, Json.obj [("agree".toList, Json.str "Contact the IRS at the number provided to arrange payment.".toList), ("disagree".toList, Json.str "Contact the IRS to dispute the notice or request additional information.".toList)]), ("paymentOptions".toList, Json.obj [("online".toList, Json.str "www.irs.gov/payments".toList), ("mail".toList, Json.str "Check the notice for mailing instructions".toList), ("plan".toList, Json.str "www.irs.gov/paymentplan".toList)])] "paymentOptions".toList], none⟩ := by
  rw [show ("  \x7d,\n".toList : List Char) =
    [' ', ' ', '}', ',', '\n'] from rfl]
  simp only [List.foldl_cons, List.foldl_nil]
  simp [parseStep, stepValueStart, stepAfterValue, pushValue, isJsonWs]

theorem fbMseg14 (nt ad : List Char) :
    List.foldl parseStep
      ⟨.expectKey, [.objF [("noticeType".toList, Json.str nt), ("noticeFor".toList, Json.str []), ("address".toList, Json.str []), ("ssn".toList, Json.str []), ("amountDue".toList, Json.str ad), ("payBy".toList, Json.str []), ("breakdown".toList, Json.arr []), ("noticeMeaning".toList, Json.str "This appears to be a tax notice requiring your attention.".toList), ("whyText".toList, Json.str "Unable to determine specific reason. Please review the document carefully.".toList), ("fixSteps".toList, Json.obj [("agree".toList, Json.str "Contact the IRS at the number provided to arrange payment.".toList), ("disagree".toList, Json.str "Contact the IRS to dispute the notice or request additional information.".toList)]), ("paymentOptions".toList, Json.obj [("online".toList, Json.str "www.irs.gov/payments".toList), ("mail".toList, Json.str "Check the notice for mailing instructions".toList), ("plan".toList, Json.str "www.irs.gov/paymentplan".toList)])] "paymentOptions".toList], none⟩
      "  \"helpInfo\": \x7b\n".toList =
    ⟨.expectKeyOrClose, [.objF [] [], .objF [("noticeType".toList, Json.str nt), ("noticeFor".toList, Json.str []), ("address".toList, Json.str []), ("ssn".toList, Json.str []), ("amountDue".toList, Json.str ad), ("payBy".toList, Json.str []), ("breakdown".toList, Json.arr []), ("noticeMeaning".toList, Json.str "This appears to be a tax notice requiring your attention.".toList), ("whyText".toList, Json.str "Unable to determine specific reason. Please review the document carefully.".toList), ("fixSteps".toList, Json.obj [("agree".toList, Json.str "Contact the IRS at the number provided to arrange payment.".toList), ("disagree".toList, Json.str "Contact the IRS to dispute the notice or request additional information.".toList)]), ("paymentOptions".toList, Json.obj [("online".toList, Json.str "www.irs.gov/payments".toList), ("mail".toList, Json.str "Check the notice for mailing instructions".toList), ("plan".toList, Json.str "www.irs.gov/paymentplan".toList)])] "helpInfo".toList], none⟩ := by
  rw [show ("  \"helpInfo\": \x7b\n".toList : List Char) =
    [' ', ' ', '\"', 'h', 'e', 'l', 'p', 'I', 'n', 'f', 'o', '\"', ':', ' ', '{', '\n'] from rfl]
  simp only [List.foldl_cons, List.foldl_nil]
  simp [parseStep, stepValueStart, stepAfterValue, pushValue, isJsonWs]

theorem fbMseg15 (nt ad : List Char) :
    List.foldl parseStep
      ⟨.expectKeyOrClose, [.objF [] [], .objF [("noticeType".toList, Json.str nt), ("noticeFor".toList, Json.str []), ("address".toList, Json.str []), ("ssn".toList, Json.str []), ("amountDue".toList, Json.str ad), ("payBy".toList, Json.str []), ("breakdown".toList, Json.arr []), ("noticeMeaning".toList, Json.str "This appears to be a tax notice requiring your attention.".toList), ("whyText".toList, Json.str "Unable to determine specific reason. Please review the document carefully.".toList), ("fixSteps".toList, Json.obj [("agree".toList, Json.str "Contact the IRS at the number provided to arrange payment.".toList), ("disagree".toList, Json.str "Contact the IRS to dispute the notice or request additional information.".toList)]), ("paymentOptions".toList, Json.obj [("online".toList, Json.str "www.irs.gov/payments".toList), ("mail".toList, Json.str "Check the notice for mailing instructions".toList), ("plan".toList, Json.str "www.irs.gov/paymentplan".toList)])] "helpInfo".toList], none⟩
      "    \"contact\": \"Check the notice for specific contact information\",\n".toList =
    ⟨.expectKey, [.objF [("contact".toList, Json.str "Check the notice for specific contact information".toList)] "contact".toList, .objF [("noticeType".toList, Json.str nt), ("noticeFor".toList, Json.str []), ("address".toList, Json.str []), ("ssn".toList, Json.str []), ("amountDue".toList, Json.str ad), ("payBy".toList, Json.str []), ("breakdown".toList, Json.arr []), ("noticeMeaning".toList, Json.str "This appears to be a tax notice requiring your attention.".toList), ("whyText".toList, Json.str "Unable to determine specific reason. Please review the document carefully.".toList), ("fixSteps".toList, Json.obj [("agree".toList, Json.str "Contact the IRS at the number provided to arrange payment.".toList), ("disagree".toList, Json.str "Contact the IRS to dispute the notice or request additional information.".toList)]), ("paymentOptions".toList, Json.obj [("online".toList, Json.str "www.irs.gov/payments".toList), ("mail".toList, Json.str "Check the notice for mailing instructions".toList), ("plan".toList, Json.str "www.irs.gov/paymentplan".toList)])] "helpInfo".toList], none⟩ := by
  rw [show ("    \"contact\": \"Check the notice for specific contact information\",\n".toList : List Char) =
    [' ', ' ', ' ', ' ', '\"', 'c', 'o', 'n', 't', 'a', 'c', 't', '\"', ':', ' ', '\"', 'C', 'h', 'e', 'c', 'k', ' ', 't', 'h', 'e', ' ', 'n', 'o', 't', 'i', 'c', 'e', ' ', 'f', 'o', 'r', ' ', 's', 'p', 'e', 'c', 'i', 'f', 'i', 'c', ' ', 'c', 'o', 'n', 't', 'a', 'c', 't', ' ', 'i', 'n', 'f', 'o', 'r', 'm', 'a', 't', 'i', 'o', 'n', '\"', ',', '\n'] from rfl]
  simp only [List.foldl_cons, List.foldl_nil]
  simp [parseStep, stepValueStart, stepAfterValue, pushValue, isJsonWs]

theorem fbMseg16 (nt ad : List Char) :
    List.foldl parseStep
      ⟨.expectKey, [.objF [("contact".toList, Json.str "Check the notice for specific contact information".toList)] "contact".toList, .objF [("noticeType".toList, Json.str nt), ("noticeFor".toList, Json.str []), ("address".toList, Json.str []), ("ssn".toList, Json.str []), ("amountDue".toList, Json.str ad), ("payBy".toList, Json.str []), ("breakdown".toList, Json.arr []), ("noticeMeaning".toList, Json.str "This appears to be a tax notice requiring your attention.".toList), ("whyText".toList, Json.str "Unable to determine specific reason. Please review the document carefully.".toList), ("fixSteps".toList, Json.obj [("agree".toList, Json.str "Contact the IRS at the number provided to arrange payment.".toList), ("disagree".toList, Json.str "Contact the IRS to dispute the notice or request additional information.".toList)]), ("paymentOptions".toList, Json.obj [("online".toList, Json.str "www.irs.gov/payments".toList), ("mail".toList, Json.str "Check the notice for mailing instructions".toList), ("plan".toList, Json.str "www.irs.gov/paymentplan".toList)])] "helpInfo".toList], none⟩
      "    \"advocate\": \"Taxpayer Advocate Service: 1-877-777-4778\"\n".toList =
    ⟨.afterValue, [.objF [("contact".toList, Json.str "Check the notice for specific contact information".toList), ("advocate".toList, Json.str "Taxpayer Advocate Service: 1-877-777-4778".toList)] "advocate".toList, .objF [("noticeType".toList, Json.str nt), ("noticeFor".toList, Json.str []), ("address".toList, Json.str []), ("ssn".toList, Json.str []), ("amountDue".toList, Json.str ad), ("payBy".toList, Json.str []), ("breakdown".toList, Json.arr []), ("noticeMeaning".toList, Json.str "This appears to be a tax notice requiring your attention.".toList), ("whyText".toList, Json.str "Unable to determine specific reason. Please review the document carefully.".toList), ("fixSteps".toList, Json.obj [("agree".toList, Json.str "Contact the IRS at the number provided to arrange payment.".toList), ("disagree".toList, Json.str "Contact the IRS to dispute the notice or request additional information.".toList)]), ("paymentOptions".toList, Json.obj [("online".toList, Json.str "www.irs.gov/payments".toList), ("mail".toList, Json.str "Check the notice for mailing instructions".toList), ("plan".toList, Json.str "www.irs.gov/paymentplan".toList)])] "helpInfo".toList], none⟩ := by
  rw [show ("    \"advocate\": \"Taxpayer Advocate Service: 1-877-777-4778\"\n".toList : List Char) =
    [' ', ' ', ' ', ' ', '\"', 'a', 'd', 'v', 'o', 'c', 'a', 't', 'e', '\"', ':', ' ', '\"', 'T', 'a', 'x', 'p', 'a', 'y', 'e', 'r', ' ', 'A', 'd', 'v', 'o', 'c', 'a', 't', 'e', ' ', 'S', 'e', 'r', 'v', 'i', 'c', 'e', ':', ' ', '1', '-', '8', '7', '7', '-', '7', '7', '7', '-', '4', '7', '7', '8', '\"', '\n'] from rfl]
  simp only [List.foldl_cons, List.foldl_nil]
  simp [parseStep, stepValueStart, stepAfterValue, pushValue, isJsonWs]

theorem fbMseg17 (nt ad : List Char) :
    List.foldl parseStep
      ⟨.afterValue, [.objF [("contact".toList, Json.str "Check the notice for specific contact information".toList), ("advocate".toList, Json.str "Taxpayer Advocate Service: 1-877-777-4778".toList)] "advocate".toList, .objF [("noticeType".toList, Json.str nt), ("noticeFor".toList, Json.str []), ("address".toList, Json.str []), ("ssn".toList, Json.str []), ("amountDue".toList, Json.str ad), ("payBy".toList, Json.str []), ("breakdown".toList, Json.arr []), ("noticeMeaning".toList, Json.str "This appears to be a tax notice requiring your attention.".toList), ("whyText".toList, Json.str "Unable to determine specific reason. Please review the document carefully.".toList), ("fixSteps".toList, Json.obj [("agree".toList, Json.str "Contact the IRS at the number provided to arrange payment.".toList), ("disagree".toList, Json.str "Contact the IRS to dispute the notice or request additional information.".toList)]), ("paymentOptions".toList, Json.obj [("online".toList, Json.str "www.irs.gov/payments".toList), ("mail".toList, Json.str "Check the notice for mailing instructions".toList), ("plan".toList, Json.str "www.irs.gov/paymentplan".toList)])] "helpInfo".toList], none⟩
      "  \x7d".toList =
    ⟨.afterValue, [.objF [("noticeType".toList, Json.str nt), ("noticeFor".toList, Json.str []), ("address".toList, Json.str []), ("ssn".toList, Json.str []), ("amountDue".toList, Json.str ad), ("payBy".toList, Json.str []), ("breakdown".toList, Json.arr []), ("noticeMeaning".toList, Json.str "This appears to be a tax notice requiring your attention.".toList), ("whyText".toList, Json.str "Unable to determine specific reason. Please review the document carefully.".toList), ("fixSteps".toList, Json.obj [("agree".toList, Json.str "Contact the IRS at the number provided to arrange payment.".toList), ("disagree".toList, Json.str "Contact the IRS to dispute the notice or request additional information.".toList)]), ("paymentOptions".toList, Json.obj [("online".toList, Json.str "www.irs.gov/payments".toList), ("mail".toList, Json.str "Check the notice for mailing instructions".toList), ("plan".toList, Json.str "www.irs.gov/paymentplan".toList)]), ("helpInfo".toList, Json.obj [("contact".toList, Json.str "Check the notice for specific contact information".toList), ("advocate".toList, Json.str "Taxpayer Advocate Service: 1-877-777-4778".toList)])] "helpInfo".toList], none⟩ := by
  rw [show ("  \x7d".toList : List Char) =
    [' ', ' ', '}'] from rfl]
  simp only [List.foldl_cons, List.foldl_nil]
  simp [parseStep, stepValueStart, stepAfterValue, pushValue, isJsonWs]

theorem fbB_scan (nt : List Char) :
    List.foldl parseStep
      ⟨.expectKey, [.objF [("noticeType".toList, Json.str nt)] "noticeType".toList], none⟩
      fbB =
    ⟨.inString false [] false, [.objF [("noticeType".toList, Json.str nt), ("noticeFor".toList, Json.str []), ("address".toList, Json.str []), ("ssn".toList, Json.str [])] "amountDue".toList], none⟩ := by
  rw [show fbB = "  \"noticeFor\": \"\",\n".toList ++ ("  \"address\": \"\",\n".toList ++ ("  \"ssn\": \"\",\n".toList ++ ("  \"amountDue\": \"".toList))) from rfl]
  simp only [List.foldl_append]
  rw [fbBseg1 nt]
  rw [fbBseg2 nt]
  rw [fbBseg3 nt]
  rw [fbBseg4 nt]

theorem fbM6_scan (nt ad : List Char) :
    List.foldl parseStep
      ⟨.expectKey, [.objF [("noticeType".toList, Json.str nt), ("noticeFor".toList, Json.str []), ("address".toList, Json.str []), ("ssn".toList, Json.str []), ("amountDue".toList, Json.str ad)] "amountDue".toList], none⟩
      fbM6 =
    ⟨.afterValue, [.objF [("noticeType".toList, Json.str nt), ("noticeFor".toList, Json.str []), ("address".toList, Json.str []), ("ssn".toList, Json.str []), ("amountDue".toList, Json.str ad), ("payBy".toList, Json.str []), ("breakdown".toList, Json.arr []), ("noticeMeaning".toList, Json.str "This appears to be a tax notice requiring your attention.".toList), ("whyText".toList, Json.str "Unable to determine specific reason. Please review the document carefully.".toList), ("fixSteps".toList, Json.obj [("agree".toList, Json.str "Contact the IRS at the number provided to arrange payment.".toList), ("disagree".toList, Json.str "Contact the IRS to dispute the notice or request additional information.".toList)]), ("paymentOptions".toList, Json.obj [("online".toList, Json.str "www.irs.gov/payments".toList), ("mail".toList, Json.str "Check the notice for mailing instructions".toList), ("plan".toList, Json.str "www.irs.gov/paymentplan".toList)]), ("helpInfo".toList, Json.obj [("contact".toList, Json.str "Check the notice for specific contact information".toList), ("advocate".toList, Json.str "Taxpayer Advocate Service: 1-877-777-4778".toList)])] "helpInfo".toList], none⟩ := by
  rw [show fbM6 = "  \"payBy\": \"\",\n".toList ++ ("  \"breakdown\": [],\n".toList ++ ("  \"noticeMeaning\": \"This appears to be a tax notice requiring your attention.\",\n".toList ++ ("  \"whyText\": \"Unable to determine specific reason. Please review the document carefully.\",\n".toList ++ ("  \"fixSteps\": \x7b\n".toList ++ ("    \"agree\": \"Contact the IRS at the number provided to arrange payment.\",\n".toList ++ ("    \"disagree\": \"Contact the IRS to dispute the notice or request additional information.\"\n".toList ++ ("  \x7d,\n".toList ++ ("  \"paymentOptions\": \x7b\n".toList ++ ("    \"online\": \"www.irs.gov/payments\",\n".toList ++ ("    \"mail\": \"Check the notice for mailing instructions\",\n".toList ++ ("    \"plan\": \"www.irs.gov/paymentplan\"\n".toList ++ ("  \x7d,\n".toList ++ ("  \"helpInfo\": \x7b\n".toList ++ ("    \"contact\": \"Check the notice for specific contact information\",\n".toList ++ ("    \"advocate\": \"Taxpayer Advocate Service: 1-877-777-4778\"\n".toList ++ ("  \x7d".toList)))))))))))))))) from rfl]
  simp only [List.foldl_append]
  rw [fbMseg1 nt ad]
  rw [fbMseg2 nt ad]
  rw [fbMseg3 nt ad]
  rw [fbMseg4 nt ad]
  rw [fbMseg5 nt ad]
  rw [fbMseg6 nt ad]
  rw [fbMseg7 nt ad]
  rw [fbMseg8 nt ad]
  rw [fbMseg9 nt ad]
  rw [fbMseg10 nt ad]
  rw [fbMseg11 nt ad]
  rw [fbMseg12 nt ad]
  rw [fbMseg13 nt ad]
  rw [fbMseg14 nt ad]
  rw [fbMseg15 nt ad]
  rw [fbMseg16 nt ad]
  rw [fbMseg17 nt ad]

theorem fallback_loads (nt ad : List Char)
    (hnt : ∀ c ∈ nt, plainChar c = true)
    (had : ∀ c ∈ ad, plainChar c = true) :
    json_loads (json_dumps (fallbackRecord nt ad)) =
      some (fallbackRecord nt ad) := by
  rw [fallback_dump_shape, escape_plain nt hnt, escape_plain ad had]
  show finishParse (List.foldl parseStep startState _) = _
  simp only [List.foldl_append, List.foldl_cons, List.foldl_nil]
  rw [show List.foldl parseStep startState fbA =
    ⟨.inString false [] false, [.objF [] "noticeType".toList], none⟩ from rfl]
  rw [foldl_inString_plain nt hnt false [] [.objF [] "noticeType".toList] none]
  rw [List.nil_append]
  rw [show parseStep
      ⟨.inString false nt false, [.objF [] "noticeType".toList], none⟩ '"' =
    ⟨.afterValue, [.objF [("noticeType".toList, Json.str nt)] "noticeType".toList],
      none⟩ from rfl]
  rw [show parseStep
      ⟨.afterValue, [.objF [("noticeType".toList, Json.str nt)] "noticeType".toList],
        none⟩ ',' =
    ⟨.expectKey, [.objF [("noticeType".toList, Json.str nt)] "noticeType".toList],
      none⟩ from rfl]
  rw [show parseStep
      ⟨.expectKey, [.objF [("noticeType".toList, Json.str nt)] "noticeType".toList],
        none⟩ '\n' =
    ⟨.expectKey, [.objF [("noticeType".toList, Json.str nt)] "noticeType".toList],
      none⟩ from rfl]
  rw [fbB_scan nt]
  rw [foldl_inString_plain ad had false [] [.objF [("noticeType".toList, Json.str nt), ("noticeFor".toList, Json.str []), ("address".toList, Json.str []), ("ssn".toList, Json.str [])] "amountDue".toList] none]
  rw [List.nil_append]
  rw [show parseStep
      ⟨.inString false ad false, [.objF [("noticeType".toList, Json.str nt), ("noticeFor".toList, Json.str []), ("address".toList, Json.str []), ("ssn".toList, Json.str [])] "amountDue".toList], none⟩ '"' =
    ⟨.afterValue, [.objF [("noticeType".toList, Json.str nt), ("noticeFor".toList, Json.str []), ("address".toList, Json.str []), ("ssn".toList, Json.str []), ("amountDue".toList, Json.str ad)] "amountDue".toList], none⟩ from rfl]
  rw [show parseStep
      ⟨.afterValue, [.objF [("noticeType".toList, Json.str nt), ("noticeFor".toList, Json.str []), ("address".toList, Json.str []), ("ssn".toList, Json.str []), ("amountDue".toList, Json.str ad)] "amountDue".toList], none⟩ ',' =
    ⟨.expectKey, [.objF [("noticeType".toList, Json.str nt), ("noticeFor".toList, Json.str []), ("address".toList, Json.str []), ("ssn".toList, Json.str []), ("amountDue".toList, Json.str ad)] "amountDue".toList], none⟩ from rfl]
  rw [show parseStep
      ⟨.expectKey, [.objF [("noticeType".toList, Json.str nt), ("noticeFor".toList, Json.str []), ("address".toList, Json.str []), ("ssn".toList, Json.str []), ("amountDue".toList, Json.str ad)] "amountDue".toList], none⟩ '\n' =
    ⟨.expectKey, [.objF [("noticeType".toList, Json.str nt), ("noticeFor".toList, Json.str []), ("address".toList, Json.str []), ("ssn".toList, Json.str []), ("amountDue".toList, Json.str ad)] "amountDue".toList], none⟩ from rfl]
  rw [fbM6_scan nt ad]
  rfl

theorem toNat_ofNat_valid (n : Nat) (h : n.isValidChar) :
    (Char.ofNat n).toNat = n := by
  rw [Char.ofNat, dif_pos h]
  rfl

theorem plainChar_of_bounds (c : Char) (h1 : 32 ≤ c.toNat) (h2 : c.toNat ≤ 126)
    (h3 : c.toNat ≠ 34) (h4 : c.toNat ≠ 92) : plainChar c = true := by
  have hq : c ≠ '"' := by intro hc; subst hc; simp at h3
  have hb : c ≠ '\\' := by intro hc; subst hc; simp at h4
  simp [plainChar, h1, h2, hq, hb]

theorem char_isDigit_toNat (c : Char) (h : c.isDigit = true) :
    48 ≤ c.toNat ∧ c.toNat ≤ 57 := by
  simp [Char.isDigit, UInt32.le_def, BitVec.le_def] at h
  exact h

theorem char_isUpper_toNat (c : Char) (h : c.isUpper = true) :
    65 ≤ c.toNat ∧ c.toNat ≤ 90 := by
  simp [Char.isUpper, UInt32.le_def, BitVec.le_def] at h
  exact h

theorem char_isLower_toNat (c : Char) (h : c.isLower = true) :
    97 ≤ c.toNat ∧ c.toNat ≤ 122 := by
  simp [Char.isLower, UInt32.le_def, BitVec.le_def] at h
  exact h

theorem plainChar_of_isDigit (c : Char) (h : c.isDigit = true) :
    plainChar c = true := by
  have hb := char_isDigit_toNat c h
  exact plainChar_of_bounds c (by omega) (by omega) (by omega) (by omega)

theorem plainChar_of_isUpper (c : Char) (h : c.isUpper = true) :
    plainChar c = true := by
  have hb := char_isUpper_toNat c h
  exact plainChar_of_bounds c (by omega) (by omega) (by omega) (by omega)

theorem plainChar_of_isLower (c : Char) (h : c.isLower = true) :
    plainChar c = true := by
  have hb := char_isLower_toNat c h
  exact plainChar_of_bounds c (by omega) (by omega) (by omega) (by omega)

theorem plainChar_of_isAlpha (c : Char) (h : c.isAlpha = true) :
    plainChar c = true := by
  simp only [Char.isAlpha, Bool.or_eq_true] at h
  rcases h with h | h
  · exact plainChar_of_isUpper c h
  · exact plainChar_of_isLower c h

theorem plainChar_toUpper (c : Char) (h : plainChar c = true) :
    plainChar c.toUpper = true := by
  by_cases hl : 97 ≤ c.toNat ∧ c.toNat ≤ 122
  · have heq : c.toUpper = Char.ofNat (c.toNat - 32) := by
      simp [Char.toUpper, hl]
    rw [heq]
    have hv : (c.toNat - 32).isValidChar := Or.inl (by omega)
    have ht := toNat_ofNat_valid (c.toNat - 32) hv
    exact plainChar_of_bounds _ (by omega) (by omega) (by omega) (by omega)
  · have heq : c.toUpper = c := by
      simp [Char.toUpper, hl]
    rw [heq]; exact h

theorem plainChar_of_charIEq (c p : Char) (h : charIEq c p = true)
    (hp : plainChar p.toLower = true) : plainChar c = true := by
  have heq : c.toLower = p.toLower := by
    simpa [charIEq] using h
  by_cases hc : 65 ≤ c.toNat ∧ c.toNat ≤ 90
  · exact plainChar_of_bounds c (by omega) (by omega) (by omega) (by omega)
  · have hid : c.toLower = c := by
      simp [Char.toLower, hc]
    rw [show c = p.toLower from by rw [← heq, hid]]
    exact hp

theorem matchCaseI_mem :
    ∀ (ps cs m rest : List Char), matchCaseI cs ps = some (m, rest) →
    ∀ c ∈ m, ∃ p ∈ ps, charIEq c p = true := by
  intro ps
  induction ps with
  | nil =>
    intro cs m rest h c hc
    cases cs with
    | nil =>
      injection h with h2
      injection h2 with hm
      rw [← hm] at hc
      simp at hc
    | cons a cs2 =>
      injection h with h2
      injection h2 with hm
      rw [← hm] at hc
      simp at hc
  | cons p ps2 ih =>
    intro cs m rest h c hc
    cases cs with
    | nil => simp [matchCaseI] at h
    | cons a cs2 =>
      unfold matchCaseI at h
      by_cases hiq : charIEq a p = true
      · rw [if_pos hiq] at h
        obtain ⟨⟨m2, rest2⟩, hm2, heq⟩ := Option.map_eq_some'.mp h
        injection heq with he1 he2
        rw [← he1] at hc
        cases hc with
        | head => exact ⟨p, List.mem_cons_self p ps2, hiq⟩
        | tail _ hmem =>
          obtain ⟨p2, hp2, hiq2⟩ := ih cs2 m2 rest2 hm2 c hmem
          exact ⟨p2, List.mem_cons_of_mem p hp2, hiq2⟩
      · rw [if_neg hiq] at h
        exact absurd h (by simp)

theorem reSearch_some (matchAt : List Char → Option (List Char)) :
    ∀ (cs m : List Char), reSearch matchAt cs = some m →
    ∃ suf, matchAt suf = some m := by
  intro cs
  induction cs with
  | nil => intro m h; exact ⟨[], h⟩
  | cons c rest ih =>
    intro m h
    unfold reSearch at h
    cases hm : matchAt (c :: rest) with
    | some m2 =>
      rw [hm] at h
      injection h with h2
      exact ⟨c :: rest, by rw [hm, h2]⟩
    | none =>
      rw [hm] at h
      exact ih m h

theorem cpMatchAt_plain (cs m : List Char) (h : cpMatchAt cs = some m) :
    ∀ c ∈ m, plainChar c = true := by
  unfold cpMatchAt at h
  split at h
  next c p rest =>
    split at h
    next hcp =>
      split at h
      next d tail =>
        split at h
        next hd =>
          injection h with hm
          intro x hx
          rw [← hm] at hx
          simp only [Bool.and_eq_true, Bool.or_eq_true, beq_iff_eq] at hcp
          cases hx with
          | head =>
            rcases hcp.1 with rfl | rfl
            · decide
            · decide
          | tail _ hx2 =>
            cases hx2 with
            | head =>
              rcases hcp.2 with rfl | rfl
              · decide
              · decide
            | tail _ hx3 =>
              rcases List.mem_append.mp hx3 with hx4 | hx4
              · exact plainChar_of_isDigit x (List.mem_takeWhile_imp hx4)
              · exact plainChar_of_isAlpha x (List.mem_takeWhile_imp hx4)
        next => exact absurd h (by simp)
      next => exact absurd h (by simp)
    next => exact absurd h (by simp)
  next => exact absurd h (by simp)

theorem letterMatchAt_plain (cs m : List Char) (h : letterMatchAt cs = some m) :
    ∀ c ∈ m, plainChar c = true := by
  unfold letterMatchAt at h
  split at h
  next m0 rest hmc =>
    split at h
    next d tail =>
      split at h
      next hd =>
        injection h with hm
        intro x hx
        rw [← hm] at hx
        rcases List.mem_append.mp hx with hx2 | hx2
        · rcases List.mem_append.mp hx2 with hx3 | hx3
          · obtain ⟨p, hp, hiq⟩ := matchCaseI_mem _ cs m0 (d :: tail) hmc x hx3
            refine plainChar_of_charIEq x p hiq ?_
            fin_cases hp <;> decide
          · exact plainChar_of_isDigit x (List.mem_takeWhile_imp hx3)
        · exact plainChar_of_isAlpha x (List.mem_takeWhile_imp hx2)
      next => exact absurd h (by simp)
    next => exact absurd h (by simp)
  next => exact absurd h (by simp)

theorem amountMatchAt_plain (cs m : List Char) (h : amountMatchAt cs = some m) :
    ∀ c ∈ m, plainChar c = true := by
  unfold amountMatchAt at h
  split at h
  next rest =>
    split at h
    next d tail =>
      split at h
      next hd =>
        have hrun : ∀ y ∈ (d :: tail).takeWhile (fun x => x.isDigit || x == ','),
            plainChar y = true := by
          intro y hy
          have hyp := List.mem_takeWhile_imp hy
          simp only [Bool.or_eq_true, beq_iff_eq] at hyp
          rcases hyp with hyd | rfl
          · exact plainChar_of_isDigit y hyd
          · decide
        split at h
        next rest3 =>
          injection h with hm
          intro x hx
          rw [← hm] at hx
          cases hx with
          | head => decide
          | tail _ hx2 =>
            rcases List.mem_append.mp hx2 with hx3 | hx3
            · exact hrun x hx3
            · cases hx3 with
              | head => decide
              | tail _ hx4 =>
                exact plainChar_of_isDigit x (List.mem_takeWhile_imp hx4)
        next =>
          injection h with hm
          intro x hx
          rw [← hm] at hx
          cases hx with
          | head => decide
          | tail _ hx2 => exact hrun x hx2
      next => exact absurd h (by simp)
    next => exact absurd h (by simp)
  next => exact absurd h (by simp)

theorem noticeTypeOf_plain (text : List Char) :
    ∀ c ∈ noticeTypeOf text, plainChar c = true := by
  unfold noticeTypeOf
  cases hl : reSearch letterMatchAt text with
  | some m =>
    obtain ⟨suf, hsuf⟩ := reSearch_some letterMatchAt text m hl
    exact letterMatchAt_plain suf m hsuf
  | none =>
    cases hc : reSearch cpMatchAt text with
    | some m =>
      obtain ⟨suf, hsuf⟩ := reSearch_some cpMatchAt text m hc
      intro x hx
      obtain ⟨y, hy, hxy⟩ := List.mem_map.mp hx
      rw [← hxy]
      exact plainChar_toUpper y (cpMatchAt_plain suf m hsuf y hy)
    | none =>
      intro x hx
      simp at hx

theorem amountOf_plain (text : List Char) :
    ∀ c ∈ amountOf text, plainChar c = true := by
  unfold amountOf
  cases ha : reSearch amountMatchAt text with
  | some m =>
    obtain ⟨suf, hsuf⟩ := reSearch_some amountMatchAt text m ha
    exact amountMatchAt_plain suf m hsuf
  | none =>
    intro x hx
    simp at hx

/-- The serialised fallback record always parses back to the fallback
dictionary it was built from. -/
theorem fallback_parses (text : List Char) :
    json_loads (create_fallback_response text) = some (fallback_data text) := by
  show json_loads (json_dumps (fallback_data text)) = some (fallback_data text)
  rw [fallback_data_eq]
  exact fallback_loads (noticeTypeOf text) (amountOf text)
    (noticeTypeOf_plain text) (amountOf_plain text)

/-- The fallback dictionary carries all twelve required keys with the
required shapes. -/
theorem fallback_complete (nt ad : List Char) :
    hasRequiredFields (fallbackRecord nt ad) = true := rfl

/-- Claim C4.  When the key and length guards pass but every attempt fails
with a network error, `call_gemini_api` returns the serialised fallback
record built from the original source text; when the pattern searches on
that text find `CP503C` as the only notice code and `$1,234.56` as the
first dollar amount, the record carries exactly those values. -/
theorem call_gemini_api_unreachable_uses_fallback (apiKey text : List Char)
    (attempts : List AttemptOutcome)
    (hk : apiKey ≠ []) (hlen : 50 ≤ (pyStrip text).length)
    (hall : ∀ a ∈ attempts, a = .requestError)
    (hcp : (reSearch cpMatchAt text).map toUpperL = some "CP503C".toList)
    (hletter : reSearch letterMatchAt text = none)
    (hamt : reSearch amountMatchAt text = some "$1,234.56".toList) :
    call_gemini_api apiKey text attempts = some (create_fallback_response text) ∧
    json_loads (create_fallback_response text) = some (fallback_data text) ∧
    jsonLookup (fallback_data text) "noticeType".toList =
      some (.str "CP503C".toList) ∧
    jsonLookup (fallback_data text) "amountDue".toList =
      some (.str "$1,234.56".toList) := by
  have htext_ne : text ≠ [] := by
    intro hcon
    rw [hcon] at hlen
    simp [pyStrip] at hlen
  refine ⟨?_, fallback_parses text, ?_, ?_⟩
  · unfold call_gemini_api
    rw [if_neg hk, if_neg (by simp [htext_ne]; omega)]
    exact apiAttemptLoop_all_errors text attempts hall
  · obtain ⟨m, hm1, hm2⟩ := Option.map_eq_some'.mp hcp
    simp only [fallback_data, hm1, hm2, hletter]
    rfl
  · obtain ⟨m, hm1, hm2⟩ := Option.map_eq_some'.mp hcp
    simp only [fallback_data, hm1, hm2, hletter, hamt]
    rfl

/-- Witness for claim C4 on a concrete 52-character notice text containing
`CP503C` and `$1,234.56`, with three failed attempts. -/
theorem call_gemini_api_unreachable_witness :
    call_gemini_api "K".toList
      "IRS Notice CP503C Amount due: $1,234.56 please remit".toList
      [.requestError, .requestError, .requestError] =
      some (create_fallback_response
        "IRS Notice CP503C Amount due: $1,234.56 please remit".toList) ∧
    json_loads (create_fallback_response
        "IRS Notice CP503C Amount due: $1,234.56 please remit".toList) =
      some (fallback_data
        "IRS Notice CP503C Amount due: $1,234.56 please remit".toList) ∧
    jsonLookup (fallback_data
        "IRS Notice CP503C Amount due: $1,234.56 please remit".toList)
      "noticeType".toList = some (.str "CP503C".toList) ∧
    jsonLookup (fallback_data
        "IRS Notice CP503C Amount due: $1,234.56 please remit".toList)
      "amountDue".toList = some (.str "$1,234.56".toList) :=
  call_gemini_api_unreachable_uses_fallback "K".toList _ _
    (by decide) (by decide)
    (by intro a ha; simp at ha; subst ha; rfl)
    (by rfl) (by rfl) (by rfl)

/-- Claim C3.  For every input text, including the empty one,
`create_fallback_response` returns a string that parses as a JSON object
carrying all twelve required top-level keys, with `breakdown` a list and
`fixSteps`, `paymentOptions`, `helpInfo` objects. -/
theorem create_fallback_response_schema_complete (text : List Char) :
    ∃ j, json_loads (create_fallback_response text) = some j ∧
      hasRequiredFields j = true := by
  refine ⟨fallback_data text, fallback_parses text, ?_⟩
  rw [fallback_data_eq]
  exact fallback_complete (noticeTypeOf text) (amountOf text)

theorem apiAttemptLoop_valid (text : List Char) :
    ∀ (attempts : List AttemptOutcome) (s : List Char),
    apiAttemptLoop text attempts = some s → (json_loads s).isSome = true := by
  intro attempts
  induction attempts with
  | nil =>
    intro s h
    have h2 := Option.some_inj.mp h
    rw [← h2, fallback_parses]
    rfl
  | cons o rest ih =>
    intro s h
    cases rest with
    | nil =>
      cases o with
      | generated g =>
        simp only [apiAttemptLoop] at h
        by_cases h1 : (json_loads (clean_api_response g)).isSome = true
        · rw [if_pos h1] at h
          have h2 := Option.some_inj.mp h
          rw [← h2]; exact h1
        · rw [if_neg h1] at h
          by_cases h2 :
              (json_loads (fix_common_json_issues (clean_api_response g))).isSome = true
          · rw [if_pos h2] at h
            have h3 := Option.some_inj.mp h
            rw [← h3]; exact h2
          · rw [if_neg h2] at h
            have h3 := Option.some_inj.mp h
            rw [← h3, fallback_parses]
            rfl
      | requestError =>
        have h2 := Option.some_inj.mp h
        rw [← h2, fallback_parses]
        rfl
      | badShape =>
        have h2 := Option.some_inj.mp h
        rw [← h2, fallback_parses]
        rfl
    | cons o2 rest2 =>
      cases o with
      | generated g =>
        simp only [apiAttemptLoop] at h
        by_cases h1 : (json_loads (clean_api_response g)).isSome = true
        · rw [if_pos h1] at h
          have h2 := Option.some_inj.mp h
          rw [← h2]; exact h1
        · rw [if_neg h1] at h
          exact ih s h
      | requestError =>
        exact ih s h
      | badShape =>
        exact ih s h

/-- Claim C1 counterexample: on the first attempt the service returns a
valid-JSON object with a single key; `call_gemini_api` emits it verbatim
(the only check at gemini_api.py line 85 is `json.loads`), yet it fails
the schema check of the never-called `validate_analysis_result`.  A
partial record is emitted to the caller. -/
theorem call_gemini_api_emits_partial_record :
    call_gemini_api "K".toList c1Text
      [.generated c1Attempt, .requestError, .requestError] = some c1Attempt ∧
    (json_loads c1Attempt).isSome = true ∧
    validate_analysis_result c1Attempt = false :=
  ⟨rfl, rfl, rfl⟩

/-- Claim C1 amended: every string `call_gemini_api` returns parses as
JSON (valid-JSON is the only enforced invariant); schema-completeness is
guaranteed only for the fallback generator's records, since
`validate_analysis_result` is never invoked on the parsing path. -/
theorem call_gemini_api_emits_valid_json (apiKey text : List Char)
    (attempts : List AttemptOutcome) (s : List Char)
    (h : call_gemini_api apiKey text attempts = some s) :
    (json_loads s).isSome = true := by
  unfold call_gemini_api at h
  by_cases hk : apiKey = []
  · rw [if_pos hk] at h
    exact absurd h (by simp)
  · rw [if_neg hk] at h
    by_cases hg : (text = [] || decide ((pyStrip text).length < 50)) = true
    · rw [if_pos hg] at h
      exact absurd h (by simp)
    · rw [if_neg hg] at h
      exact apiAttemptLoop_valid text attempts s h

/-- Witness for the amended claim C1 at a concrete exhausted run. -/
theorem call_gemini_api_emits_valid_json_witness :
    (json_loads (create_fallback_response c1Text)).isSome = true :=
  call_gemini_api_emits_valid_json "K".toList c1Text
    [.requestError, .requestError, .requestError]
    (create_fallback_response c1Text) (by rfl)

/-- Claim C5.  With the meaningfulness gate failed (text not meaningful,
or no page counted) and the OCR text not meaningful either, the function
returns the direct text when it strips non-empty, else the OCR text when
that strips non-empty, and `None` exactly when both strip empty. -/
theorem extract_text_best_effort (pdfBytes : List Nat) (pages : List Page)
    (ocr : Option (List Char))
    (hb : pdfBytes ≠ [])
    (hnm : is_meaningful_text (clean_extracted_text (extractPages pages).1) = false ∨
      (extractPages pages).2 = 0)
    (hocr : ∀ t, ocr = some t → is_meaningful_text t = false) :
    (pyStrip (clean_extracted_text (extractPages pages).1) ≠ [] →
      extract_text_from_pdf_enhanced pdfBytes (some pages) ocr =
        some (clean_extracted_text (extractPages pages).1)) ∧
    (pyStrip (clean_extracted_text (extractPages pages).1) = [] →
      ∀ t, ocr = some t → pyStrip t ≠ [] →
        extract_text_from_pdf_enhanced pdfBytes (some pages) ocr = some t) ∧
    (pyStrip (clean_extracted_text (extractPages pages).1) = [] →
      (∀ t, ocr = some t → pyStrip t = []) →
      extract_text_from_pdf_enhanced pdfBytes (some pages) ocr = none) := by
  have hgate : (is_meaningful_text (clean_extracted_text (extractPages pages).1) &&
      decide (0 < (extractPages pages).2)) = false := by
    rcases hnm with hnm | hnm
    · rw [hnm]; rfl
    · rw [hnm]; simp
  unfold extract_text_from_pdf_enhanced
  rw [if_neg hb]
  simp only [hgate, Bool.false_eq_true, if_false]
  refine ⟨?_, ?_, ?_⟩
  · intro hne
    have hie : (pyStrip (clean_extracted_text (extractPages pages).1)).isEmpty = false := by
      simp [List.isEmpty_iff, hne]
    cases ocr with
    | none => simp [hie]
    | some t =>
      have hm := hocr t rfl
      simp [hm, hie]
  · intro hemp t hts hstrip
    rw [hts]
    have hm := hocr t hts
    have htne : t ≠ [] := by
      intro hc; rw [hc] at hstrip; exact hstrip rfl
    have h1 : t.isEmpty = false := by simp [List.isEmpty_iff, htne]
    have h2 : (pyStrip t).isEmpty = false := by simp [List.isEmpty_iff, hstrip]
    have h3 : (pyStrip (clean_extracted_text (extractPages pages).1)).isEmpty = true := by
      simp [List.isEmpty_iff, hemp]
    simp [hm, h1, h2, h3]
  · intro hemp hall
    have h3 : (pyStrip (clean_extracted_text (extractPages pages).1)).isEmpty = true := by
      simp [List.isEmpty_iff, hemp]
    cases ocr with
    | none => simp [h3]
    | some t =>
      have hm := hocr t rfl
      have h4 : (pyStrip t).isEmpty = true := by
        simp [List.isEmpty_iff, hall t rfl]
      simp [hm, h3, h4]

/-- Witness for claim C5: one page whose first method yields `"xx"` (counted
but not meaningful), no OCR; the short text is returned best-effort. -/
theorem extract_text_best_effort_witness :
    extract_text_from_pdf_enhanced [1]
      (some [⟨some "xx".toList, none, none⟩]) none =
      some (clean_extracted_text (extractPages [⟨some "xx".toList, none, none⟩]).1) :=
  (extract_text_best_effort [1] [⟨some "xx".toList, none, none⟩] none
    (by decide) (Or.inl (by decide))
    (fun t ht => by simp at ht)).1 (by decide)

/-- Claim C6.  An empty byte buffer, or a buffer `fitz.open` rejects,
yields `None`; the model is a total function, mirroring that every failure
path in the source is caught and returns. -/
theorem extract_text_guard_none (pdfBytes : List Nat)
    (doc : Option (List Page)) (ocr : Option (List Char))
    (h : pdfBytes = [] ∨ doc = none) :
    extract_text_from_pdf_enhanced pdfBytes doc ocr = none := by
  unfold extract_text_from_pdf_enhanced
  rcases h with h | h
  · rw [if_pos h]
  · by_cases hb : pdfBytes = []
    · rw [if_pos hb]
    · rw [if_neg hb, h]

/-- Witness for claim C6: the empty buffer, and a non-empty buffer that
fails to open, both with OCR text available. -/
theorem extract_text_guard_none_witness :
    extract_text_from_pdf_enhanced []
      (some [⟨some "xx".toList, none, none⟩]) (some "ocr".toList) = none ∧
    extract_text_from_pdf_enhanced [7] none (some "ocr".toList) = none :=
  ⟨extract_text_guard_none [] _ _ (Or.inl rfl),
   extract_text_guard_none [7] none _ (Or.inr rfl)⟩
